import Mathlib

/-!
# Event REST API: validation and handlers

A shallow embedding of `handlers/events.go`, `models/event.go` and the table declared by
`database/connection.go`, together with the parts of the Go standard library that the
validators call (`time.Parse` for the layouts `2006-01-02` and `15:04:05`, and `regexp`
for the e-mail pattern) and with `encoding/json` on `models.Event`.

Go strings are modelled as `String` / `List Char`.  Every character that the parsers
below consume is an ASCII digit or separator, so indexing by character and indexing by
byte agree on every prefix that is accepted.
-/

namespace Restapi

/-! ## Package `time`: what `time.Parse` does for the two layouts -/

namespace GoTime

/-- Errors inside `time.Parse`: `errBad` (malformed element), `errAtoi` and
`errLeadingInt` of the number readers, a range error naming the field, and the
`extra text` error raised when input is left over. -/
inductive ParseError where
  | errBad
  | errAtoi
  | errLeadingInt
  | outOfRange (what : String)
  | extraText
  deriving DecidableEq, Repr

/-- The byte `s[i]` as a number; only read where `isDigit s i` holds. -/
def byteAt (s : List Char) (i : Nat) : Nat :=
  match s.get? i with
  | some c => c.toNat
  | none => 0

/-- `isDigit(s, i)`: `i` is in range and `s[i]` is a decimal digit. -/
def isDigit (s : List Char) (i : Nat) : Bool :=
  match s.get? i with
  | none => false
  | some c => decide ('0'.toNat ≤ c.toNat) && decide (c.toNat ≤ '9'.toNat)

/-- `commaOrPeriod(b)`. -/
def commaOrPeriod (b : Char) : Bool :=
  b == '.' || b == ','

/-- `leadingInt(s)`: consumes the leading `[0-9]*` of `s`, with the overflow checks of
the source (`x` is a `uint64`, capped at `1<<63`). The accumulator is the running `x`. -/
def leadingInt : List Char → Nat → Except ParseError (Nat × List Char)
  | [], x => .ok (x, [])
  | c :: s, x =>
    if c.toNat < '0'.toNat || c.toNat > '9'.toNat then .ok (x, c :: s)
    else if x > 2 ^ 63 / 10 then .error .errLeadingInt
    else
      let x1 := x * 10 + c.toNat - '0'.toNat
      if x1 > 2 ^ 63 then .error .errLeadingInt
      else leadingInt s x1

/-- Conversion `int(q)` of a `uint64` to the 64-bit signed `int`. -/
def toInt64 (q : Nat) : Int :=
  if q % 2 ^ 64 < 2 ^ 63 then ((q % 2 ^ 64 : Nat) : Int) else ((q % 2 ^ 64 : Nat) : Int) - 2 ^ 64

/-- `atoi(s)`: optional sign, then digits only. -/
def atoi (s : List Char) : Except ParseError Int :=
  let neg := match s with
    | c :: _ => c == '-'
    | [] => false
  let s1 := match s with
    | c :: r => if c == '-' || c == '+' then r else c :: r
    | [] => []
  match leadingInt s1 0 with
  | .error _ => .error .errAtoi
  | .ok (q, rem) =>
    if rem.length > 0 then .error .errAtoi
    else if neg then .ok (- toInt64 q) else .ok (toInt64 q)

/-- `getnum(s, fixed)`: one or two leading digits (`fixed` forces two). -/
def getnum (s : List Char) (fixed : Bool) : Except ParseError (Int × List Char) :=
  if !isDigit s 0 then .error .errBad
  else if !isDigit s 1 then
    if fixed then .error .errBad
    else .ok (((byteAt s 0 - '0'.toNat : Nat) : Int), s.drop 1)
  else .ok (((byteAt s 0 - '0'.toNat : Nat) : Int) * 10 + ((byteAt s 1 - '0'.toNat : Nat) : Int),
    s.drop 2)

/-- `cutspace(s)`: drops leading spaces. -/
def cutspace (s : List Char) : List Char :=
  s.dropWhile (fun c => c == ' ')

/-- The loop of `skip`, with the number of remaining iterations bounded by `fuel`
(each iteration removes at least one character of the literal text). -/
def skipLoop : Nat → List Char → List Char → Except ParseError (List Char)
  | _, value, [] => .ok value
  | 0, _, _ :: _ => .error .errBad
  | fuel + 1, value, p :: ps =>
    if p == ' ' then
      match value with
      | v :: vs =>
        if v != ' ' then .error .errBad
        else skipLoop fuel (cutspace (v :: vs)) (cutspace (p :: ps))
      | [] => skipLoop fuel (cutspace []) (cutspace (p :: ps))
    else
      match value with
      | [] => .error .errBad
      | v :: vs => if v != p then .error .errBad else skipLoop fuel vs ps

/-- `skip(value, prefix)`: removes the literal text `pre` from the front of `value`. -/
def skip (value pre : List Char) : Except ParseError (List Char) :=
  skipLoop pre.length value pre

/-- The layout elements (`std` codes) that occur in the two layouts, and the two
fractional-second codes that the seconds case looks ahead for. -/
inductive Std where
  | stdLongYear
  | stdZeroMonth
  | stdZeroDay
  | stdHour
  | stdZeroMinute
  | stdZeroSecond
  | stdFracSecond0
  | stdFracSecond9
  deriving DecidableEq, Repr

/-- One result of `nextStdChunk`: the literal text before the element, and the element. -/
structure Chunk where
  pre : List Char
  std : Std
  deriving DecidableEq, Repr

/-- A layout as the sequence of chunks that repeated calls of `nextStdChunk` return,
followed by the literal text after the last element. -/
structure Layout where
  chunks : List Chunk
  rest : List Char
  deriving DecidableEq, Repr

/-- The layout `"2006-01-02"`. -/
def dateLayout : Layout :=
  { chunks := [⟨[], .stdLongYear⟩, ⟨['-'], .stdZeroMonth⟩, ⟨['-'], .stdZeroDay⟩], rest := [] }

/-- The layout `"15:04:05"`. -/
def timeLayout : Layout :=
  { chunks := [⟨[], .stdHour⟩, ⟨[':'], .stdZeroMinute⟩, ⟨[':'], .stdZeroSecond⟩], rest := [] }

/-- The fields of the time under construction in `parse`, with their initial values. -/
structure Fields where
  year : Int := 0
  month : Int := -1
  day : Int := -1
  hour : Int := 0
  min : Int := 0
  sec : Int := 0
  nsec : Int := 0
  deriving DecidableEq, Repr

/-- The digits of a fractional second: the index `n` reached by the scan
`for n := 2; n < len(value) && isDigit(value, n); n++`, started at `n`. -/
def fracEnd : Nat → List Char → Nat → Nat
  | 0, _, n => n
  | fuel + 1, value, n =>
    if n < value.length && isDigit value n then fracEnd fuel value (n + 1) else n

/-- `parseNanoseconds(value, nbytes)`: digits after the ninth are cut off. -/
def parseNanoseconds (value : List Char) (nbytes : Nat) : Except ParseError Int :=
  match value with
  | [] => .error .errBad
  | v0 :: _ =>
    if !commaOrPeriod v0 then .error .errBad
    else
      let value1 := if nbytes > 10 then value.take 10 else value
      let nbytes1 := if nbytes > 10 then 10 else nbytes
      match atoi ((value1.take nbytes1).drop 1) with
      | .error e => .error e
      | .ok ns =>
        if ns < 0 then .error (.outOfRange "fractional second")
        else .ok (ns * 10 ^ (10 - nbytes1))

/-- One pass of the `switch std & stdMask` of `parse` for the element `std`; `next` is
the element that follows in the layout (what `nextStdChunk(layout)` returns there). -/
def stdCase (std : Std) (next : Option Std) (value : List Char) (t : Fields) :
    Except ParseError (Fields × List Char) :=
  match std with
  | .stdLongYear =>
    if value.length < 4 || !isDigit value 0 then .error .errBad
    else
      match atoi (value.take 4) with
      | .error e => .error e
      | .ok y => .ok ({ t with year := y }, value.drop 4)
  | .stdZeroMonth =>
    match getnum value true with
    | .error e => .error e
    | .ok (m, v) =>
      if m ≤ 0 || 12 < m then .error (.outOfRange "month")
      else .ok ({ t with month := m }, v)
  | .stdZeroDay =>
    match getnum value true with
    | .error e => .error e
    | .ok (d, v) => .ok ({ t with day := d }, v)
  | .stdHour =>
    match getnum value false with
    | .error e => .error e
    | .ok (h, v) =>
      if h < 0 || 24 ≤ h then .error (.outOfRange "hour")
      else .ok ({ t with hour := h }, v)
  | .stdZeroMinute =>
    match getnum value true with
    | .error e => .error e
    | .ok (m, v) =>
      if m < 0 || 60 ≤ m then .error (.outOfRange "minute")
      else .ok ({ t with min := m }, v)
  | .stdZeroSecond =>
    match getnum value true with
    | .error e => .error e
    | .ok (s, v) =>
      if s < 0 || 60 ≤ s then .error (.outOfRange "second")
      else
        match v with
        | v0 :: _ :: _ =>
          if commaOrPeriod v0 && isDigit v 1 then
            if next = some .stdFracSecond0 || next = some .stdFracSecond9 then
              .ok ({ t with sec := s }, v)
            else
              let n := fracEnd v.length v 2
              match parseNanoseconds v n with
              | .error e => .error e
              | .ok ns => .ok ({ t with sec := s, nsec := ns }, v.drop n)
          else .ok ({ t with sec := s }, v)
        | _ => .ok ({ t with sec := s }, v)
  | .stdFracSecond0 => .error .errBad
  | .stdFracSecond9 => .error .errBad

/-- The `for` loop of `parse`: one iteration per layout element, then the final
iteration (`std == 0`) that skips the trailing literal text and rejects extra input. -/
def parseLoop : List Chunk → List Char → List Char → Fields → Except ParseError Fields
  | [], rest, value, t =>
    match skip value rest with
    | .error e => .error e
    | .ok v => if v.length ≠ 0 then .error .extraText else .ok t
  | c :: cs, rest, value, t =>
    match skip value c.pre with
    | .error e => .error e
    | .ok v =>
      match stdCase c.std (cs.head?.map Chunk.std) v t with
      | .error e => .error e
      | .ok (t1, v1) => parseLoop cs rest v1 t1

/-- `daysBefore[m]`: days in a non-leap year before the end of month `m`. -/
def daysBefore : List Int :=
  [0, 31, 31 + 28, 31 + 28 + 31, 31 + 28 + 31 + 30, 31 + 28 + 31 + 30 + 31,
   31 + 28 + 31 + 30 + 31 + 30, 31 + 28 + 31 + 30 + 31 + 30 + 31,
   31 + 28 + 31 + 30 + 31 + 30 + 31 + 31, 31 + 28 + 31 + 30 + 31 + 30 + 31 + 31 + 30,
   31 + 28 + 31 + 30 + 31 + 30 + 31 + 31 + 30 + 31,
   31 + 28 + 31 + 30 + 31 + 30 + 31 + 31 + 30 + 31 + 30,
   31 + 28 + 31 + 30 + 31 + 30 + 31 + 31 + 30 + 31 + 30 + 31]

/-- `isLeap(year)`. -/
def isLeap (year : Int) : Bool :=
  year.tmod 4 == 0 && (year.tmod 100 != 0 || year.tmod 400 == 0)

/-- `daysIn(m, year)`. -/
def daysIn (m : Int) (year : Int) : Int :=
  if m == 2 && isLeap year then 29
  else daysBefore.getD m.toNat 0 - daysBefore.getD (m - 1).toNat 0

/-- `time.Parse(layout, value)`: the element loop, the defaults for an absent month and
day, and the validation of the day of the month. The parsed fields stand for the
returned `Time`; the validators only look at the error. -/
def Parse (layout : Layout) (value : List Char) : Except ParseError Fields :=
  match parseLoop layout.chunks layout.rest value {} with
  | .error e => .error e
  | .ok t =>
    let month := if t.month < 0 then 1 else t.month
    let day := if t.day < 0 then 1 else t.day
    if day < 1 || day > daysIn month t.year then .error (.outOfRange "day")
    else .ok { t with month := month, day := day }

end GoTime

/-! ## Package `regexp`: regular expressions over characters -/

namespace GoRegexp

/-- Regular expressions: the empty language, the empty string, a character class,
concatenation, alternation and repetition (`*`). -/
inductive Re where
  | none
  | eps
  | cls (p : Char → Bool)
  | cat (r s : Re)
  | alt (r s : Re)
  | star (r : Re)

/-- The repetition `r+`. -/
def Re.plus (r : Re) : Re := .cat r (.star r)

/-- The repetition `r{n,}`. -/
def Re.atLeast : Nat → Re → Re
  | 0, r => .star r
  | n + 1, r => .cat r (Re.atLeast n r)

/-- Whether the expression matches the empty string. -/
def Re.nullable : Re → Bool
  | .none => false
  | .eps => true
  | .cls _ => false
  | .cat r s => r.nullable && s.nullable
  | .alt r s => r.nullable || s.nullable
  | .star _ => true

/-- The derivative of an expression by a character: what may follow after reading `c`. -/
def Re.deriv : Re → Char → Re
  | .none, _ => .none
  | .eps, _ => .none
  | .cls p, c => if p c then .eps else .none
  | .cat r s, c =>
    if r.nullable then .alt (.cat (r.deriv c) s) (s.deriv c) else .cat (r.deriv c) s
  | .alt r s, c => .alt (r.deriv c) (s.deriv c)
  | .star r, c => .cat (r.deriv c) (.star r)

/-- Whether the expression matches the whole text. -/
def Re.fullMatch : Re → List Char → Bool
  | r, [] => r.nullable
  | r, c :: cs => Re.fullMatch (r.deriv c) cs

/-- The texts that an expression denotes. -/
inductive Matches : Re → List Char → Prop where
  | eps : Matches .eps []
  | cls (p : Char → Bool) (c : Char) : p c = true → Matches (.cls p) [c]
  | cat (r s : Re) (u v : List Char) : Matches r u → Matches s v → Matches (.cat r s) (u ++ v)
  | altL (r s : Re) (u : List Char) : Matches r u → Matches (.alt r s) u
  | altR (r s : Re) (u : List Char) : Matches s u → Matches (.alt r s) u
  | starNil (r : Re) : Matches (.star r) []
  | starCons (r : Re) (u v : List Char) :
      Matches r u → Matches (.star r) v → Matches (.star r) (u ++ v)

/-- A character class given by inclusive ranges, as written between `[` and `]`. -/
def inRanges (ranges : List (Char × Char)) (c : Char) : Bool :=
  ranges.any (fun r => decide (r.1.toNat ≤ c.toNat) && decide (c.toNat ≤ r.2.toNat))

end GoRegexp

/-- The class `[a-zA-Z0-9._%+-]`. -/
def localClass : Char → Bool :=
  GoRegexp.inRanges [('a', 'z'), ('A', 'Z'), ('0', '9'), ('.', '.'), ('_', '_'), ('%', '%'),
    ('+', '+'), ('-', '-')]

/-- The class `[a-zA-Z0-9.-]`. -/
def domainClass : Char → Bool :=
  GoRegexp.inRanges [('a', 'z'), ('A', 'Z'), ('0', '9'), ('.', '.'), ('-', '-')]

/-- The class `[a-zA-Z]`. -/
def letterClass : Char → Bool :=
  GoRegexp.inRanges [('a', 'z'), ('A', 'Z')]

/-- The pattern between `^` and `$` of
`^[a-zA-Z0-9._%+-]+@[a-zA-Z0-9.-]+\.[a-zA-Z]{2,}$`. -/
def emailRegex : GoRegexp.Re :=
  .cat (GoRegexp.Re.plus (.cls localClass))
    (.cat (.cls (fun c => c == '@'))
      (.cat (GoRegexp.Re.plus (.cls domainClass))
        (.cat (.cls (fun c => c == '.'))
          (GoRegexp.Re.atLeast 2 (.cls letterClass)))))

/-- `emailRegex.MatchString(s)`: the pattern starts with `^` and ends with `$`, which
without flags match only at the beginning and at the end of the text, so the text matches
exactly when all of it matches the pattern between them. -/
def emailRegexMatchString (s : String) : Bool :=
  emailRegex.fullMatch s.toList

/-! ## `handlers/events.go`: the validators -/

/-- `validateEmail`. -/
def validateEmail (email : String) : Bool :=
  if email == "" then true
  else emailRegexMatchString email

/-- `validateDateFormat`: `time.Parse("2006-01-02", date)` returns no error. -/
def validateDateFormat (date : String) : Bool :=
  match GoTime.Parse GoTime.dateLayout date.toList with
  | .ok _ => true
  | .error _ => false

/-- `validateTimeFormat`: `time.Parse("15:04:05", timeStr)` returns no error. -/
def validateTimeFormat (timeStr : String) : Bool :=
  match GoTime.Parse GoTime.timeLayout timeStr.toList with
  | .ok _ => true
  | .error _ => false

/-! ## `models/event.go` -/

/-- `models.Event`. A `*string` field is an `Option String`; `time.Time` is a number. -/
structure Event where
  ID : String
  Name : String
  Description : Option String
  VenueName : String
  Address : String
  Date : String
  Time : String
  ContactMobile : Option String
  ContactEmail : Option String
  ContactInstagram : Option String
  CreatedAt : Nat
  UpdatedAt : Nat
  deriving DecidableEq, Repr

/-- `models.CreateEventRequest`. -/
structure CreateEventRequest where
  Name : String
  Description : Option String
  VenueName : String
  Address : String
  Date : String
  Time : String
  ContactMobile : Option String
  ContactEmail : Option String
  ContactInstagram : Option String
  deriving DecidableEq, Repr

/-- `models.UpdateEventRequest`. -/
structure UpdateEventRequest where
  Name : String
  Description : Option String
  VenueName : String
  Address : String
  Date : String
  Time : String
  ContactMobile : Option String
  ContactEmail : Option String
  ContactInstagram : Option String
  deriving DecidableEq, Repr

/-! ## The store behind `database.DB`

The `events` table of `CreateTables`, held as a list of rows, with the statements that the
handlers issue. The store enforces what the schema declares: the width of the `VARCHAR`
columns (the `NOT NULL` columns are Go strings, never null). A row holds its `DATE` and
`TIME` columns as the text that PostgreSQL sends for them, `2024-03-15` and `14:30:00`.
`Scan` does not give that text back: the driver hands the value over as a `time.Time`, and
`database/sql` stores a `time.Time` into a `string` field in the layout RFC 3339, so that
the event carries `2024-03-15T00:00:00Z` and `0000-01-01T14:30:00Z`
(`TestDatabaseSchemaIntegration` expects the text as it was sent). -/

/-- The statements of `handlers/events.go`. -/
inductive Stmt where
  | insert (req : CreateEventRequest)
  | selectAll
  | selectByID (id : String)
  | selectIDByID (id : String)
  | update (id : String) (req : UpdateEventRequest)
  | delete (id : String)
  deriving DecidableEq, Repr

/-- What a store call returns as `err`: `sql.ErrNoRows`, or any other failure with the
driver's text. -/
inductive DbError where
  | errNoRows
  | failure (msg : String)
  deriving DecidableEq, Repr

/-- The state of the store: the rows of `events`, the fault of the connection if it has
one (then every statement fails with that text), the values `gen_random_uuid()` yields
(`uuid n` for the `n`-th insert), `CURRENT_TIMESTAMP`, and the statements received.
`dateIn` and `timeIn` are PostgreSQL's reading of a text sent for a `DATE` or a `TIME`
column, given as the text it sends back for the value, `none` when it refuses the text;
that reading is not in `src/` and is a parameter of the store. -/
structure Store where
  rows : List Event
  fault : Option String
  uuid : Nat → String
  inserted : Nat
  now : Nat
  log : List Stmt
  dateIn : String → Option String
  timeIn : String → Option String

namespace Store

/-- A value stored into a `VARCHAR(n)` column: longer values are an error, unless the
excess is all spaces, which is cut off. -/
def varchar (n : Nat) (s : String) : Except DbError String :=
  if s.length ≤ n then .ok s
  else if (s.toList.drop n).all (fun c => c == ' ') then .ok (String.mk (s.toList.take n))
  else .error (.failure "value too long for type character varying")

/-- A nullable `VARCHAR(n)` column. -/
def varcharNull (n : Nat) (s : Option String) : Except DbError (Option String) :=
  match s with
  | none => .ok none
  | some v =>
    match varchar n v with
    | .ok w => .ok (some w)
    | .error e => .error e

/-- The column values of a row to be written, checked against the schema:
`name VARCHAR(255)`, `venue_name VARCHAR(255)`, `contact_mobile VARCHAR(20)`,
`contact_email VARCHAR(255)`, `contact_instagram VARCHAR(100)`; `description` and
`address` are `TEXT`. The identifier and the timestamps are passed through. -/
def checked (e : Event) : Except DbError Event :=
  match varchar 255 e.Name with
  | .error err => .error err
  | .ok name =>
    match varchar 255 e.VenueName with
    | .error err => .error err
    | .ok venue =>
      match varcharNull 20 e.ContactMobile with
      | .error err => .error err
      | .ok mobile =>
        match varcharNull 255 e.ContactEmail with
        | .error err => .error err
        | .ok email =>
          match varcharNull 100 e.ContactInstagram with
          | .error err => .error err
          | .ok instagram =>
            .ok { e with Name := name, VenueName := venue, ContactMobile := mobile,
                         ContactEmail := email, ContactInstagram := instagram }

/-- The store after it has received a statement. -/
def received (db : Store) (q : Stmt) : Store :=
  { db with log := db.log ++ [q] }

/-- `Scan` of a row into the fields of `models.Event`: the `DATE` value arrives as the
`time.Time` of that day at midnight UTC and the `TIME` value as that time on 0000-01-01,
and each is written into its `string` field by `Format(time.RFC3339Nano)`. -/
def scan (row : Event) : Event :=
  { row with Date := row.Date ++ "T00:00:00Z", Time := "0000-01-01T" ++ row.Time ++ "Z" }

/-- `INSERT INTO events (...) VALUES ($1, ..., $9) RETURNING ...` with `Scan`. -/
def queryRowInsert (db : Store) (req : CreateEventRequest) : Except DbError Event × Store :=
  let db1 := db.received (.insert req)
  match db1.fault with
  | some msg => (.error (.failure msg), db1)
  | none =>
    match db1.dateIn req.Date with
    | none => (.error (.failure "invalid input for type date"), db1)
    | some date =>
      match db1.timeIn req.Time with
      | none => (.error (.failure "invalid input for type time"), db1)
      | some time =>
        match checked
          { ID := db1.uuid db1.inserted, Name := req.Name, Description := req.Description,
            VenueName := req.VenueName, Address := req.Address, Date := date,
            Time := time, ContactMobile := req.ContactMobile,
            ContactEmail := req.ContactEmail, ContactInstagram := req.ContactInstagram,
            CreatedAt := db1.now, UpdatedAt := db1.now } with
        | .error err => (.error err, db1)
        | .ok row =>
          (.ok (scan row), { db1 with rows := db1.rows ++ [row], inserted := db1.inserted + 1 })

/-- `DB.Get(&event, "SELECT ... FROM events WHERE id = $1", id)`: the first row with that
identifier, `sql.ErrNoRows` when there is none. -/
def getByID (db : Store) (id : String) : Except DbError Event × Store :=
  let db1 := db.received (.selectByID id)
  match db1.fault with
  | some msg => (.error (.failure msg), db1)
  | none =>
    match db1.rows.find? (fun r => r.ID == id) with
    | some row => (.ok (scan row), db1)
    | none => (.error .errNoRows, db1)

/-- `DB.Get(&existingEvent, "SELECT id FROM events WHERE id = $1", id)`. -/
def getIDByID (db : Store) (id : String) : Except DbError String × Store :=
  let db1 := db.received (.selectIDByID id)
  match db1.fault with
  | some msg => (.error (.failure msg), db1)
  | none =>
    match db1.rows.find? (fun r => r.ID == id) with
    | some row => (.ok row.ID, db1)
    | none => (.error .errNoRows, db1)

/-- `UPDATE events SET ... , updated_at = CURRENT_TIMESTAMP WHERE id = $10 RETURNING ...`
with `Scan`: the texts sent for the date and the time are read first; then the row is
rewritten in place and returned; `Scan` reports `sql.ErrNoRows` when the statement
returned no row. -/
def queryRowUpdate (db : Store) (id : String) (req : UpdateEventRequest) :
    Except DbError Event × Store :=
  let db1 := db.received (.update id req)
  match db1.fault with
  | some msg => (.error (.failure msg), db1)
  | none =>
    match db1.dateIn req.Date with
    | none => (.error (.failure "invalid input for type date"), db1)
    | some date =>
      match db1.timeIn req.Time with
      | none => (.error (.failure "invalid input for type time"), db1)
      | some time =>
        match db1.rows.find? (fun r => r.ID == id) with
        | none => (.error .errNoRows, db1)
        | some old =>
          match checked
            { ID := old.ID, Name := req.Name, Description := req.Description,
              VenueName := req.VenueName, Address := req.Address, Date := date,
              Time := time, ContactMobile := req.ContactMobile,
              ContactEmail := req.ContactEmail, ContactInstagram := req.ContactInstagram,
              CreatedAt := old.CreatedAt, UpdatedAt := db1.now } with
          | .error err => (.error err, db1)
          | .ok row =>
            (.ok (scan row),
              { db1 with rows := db1.rows.map (fun r => if r.ID == id then row else r) })

/-- `DB.Exec("DELETE FROM events WHERE id = $1", id)`, returning `RowsAffected()`. -/
def execDelete (db : Store) (id : String) : Except DbError Nat × Store :=
  let db1 := db.received (.delete id)
  match db1.fault with
  | some msg => (.error (.failure msg), db1)
  | none =>
    ((.ok (db1.rows.filter (fun r => r.ID == id)).length),
      { db1 with rows := db1.rows.filter (fun r => !(r.ID == id)) })

/-- The day that the text `YYYY-MM-DD` of a `DATE` column stands for, as the number
`YYYYMMDD`, which grows with the date; a text that is no date counts as 0. -/
def dateValue (s : String) : Int :=
  match GoTime.Parse GoTime.dateLayout s.toList with
  | .ok t => t.year * 10000 + t.month * 100 + t.day
  | .error _ => 0

/-- The time of day that the text `HH:MM:SS`, with its fraction if it has one, of a `TIME`
column stands for, in nanoseconds since midnight; a text that is no time counts as 0. -/
def timeValue (s : String) : Int :=
  match GoTime.Parse GoTime.timeLayout s.toList with
  | .ok t => ((t.hour * 60 + t.min) * 60 + t.sec) * 1000000000 + t.nsec
  | .error _ => 0

/-- The order of `ORDER BY date, time`: an earlier date, or the same date and a time that
is not later. -/
def before (a b : Event) : Prop :=
  dateValue a.Date < dateValue b.Date ∨
    (dateValue a.Date = dateValue b.Date ∧ timeValue a.Time ≤ timeValue b.Time)

instance decidableBefore : DecidableRel before :=
  fun a b => by unfold before; exact inferInstance

/-- `DB.Select(&events, "SELECT ... FROM events ORDER BY date, time")` on the nil slice
that `var events []models.Event` declares: every row, in the order of `ORDER BY`, is
scanned and appended. The result is the slice afterwards: `none` is the nil slice, which is
what is left when there was no row to append. Rows that `ORDER BY` does not tell apart
keep the order of the table. -/
def selectAll (db : Store) : Except DbError (Option (List Event)) × Store :=
  let db1 := db.received .selectAll
  match db1.fault with
  | some msg => (.error (.failure msg), db1)
  | none =>
    match (db1.rows.insertionSort before).map scan with
    | [] => (.ok none, db1)
    | e :: es => (.ok (some (e :: es)), db1)

/-- The date of an event as `Scan` wrote it, `YYYY-MM-DDT00:00:00Z`, read back to the
number `YYYYMMDD`. -/
def scannedDateValue (s : String) : Int :=
  dateValue (String.mk (s.toList.take (s.toList.length - 10)))

/-- The time of an event as `Scan` wrote it, `0000-01-01THH:MM:SSZ` with the fraction
before the `Z` if there is one, read back to nanoseconds since midnight. -/
def scannedTimeValue (s : String) : Int :=
  timeValue (String.mk ((s.toList.drop 11).take (s.toList.length - 12)))

/-- The reading of a date text by the store of the examples: of the texts that pass
`validateDateFormat`, PostgreSQL takes those with a year from 0001 on and sends the same
text back; it has no year 0000. -/
def isoDate (s : String) : Option String :=
  match GoTime.Parse GoTime.dateLayout s.toList with
  | .ok t => if t.year ≤ 0 then none else some s
  | .error _ => none

/-- A fraction without its trailing zeros. -/
def trimZeros (ds : List Char) : List Char :=
  (ds.reverse.dropWhile (fun c => c == '0')).reverse

/-- The reading of a time text by the store of the examples: of the texts that pass
`validateTimeFormat`, those with a period before the fraction, if they have one, and
nothing finer than a microsecond are taken, and sent back with a two-digit hour and the
fraction without trailing zeros. A comma is refused. A finer fraction, which PostgreSQL
rounds, is refused here. -/
def isoTime (s : String) : Option String :=
  match GoTime.Parse GoTime.timeLayout s.toList with
  | .error _ => none
  | .ok t =>
    if s.toList.contains ',' || t.nsec % 1000 != 0 then none
    else
      let l := if GoTime.isDigit s.toList 1 then s.toList else '0' :: s.toList
      let frac := trimZeros ((l.drop 9).take 6)
      some (String.mk (l.take 8 ++ (if frac.isEmpty then [] else '.' :: frac)))

end Store

/-! ## `handlers/events.go`: the handlers

A handler takes what `c.Params("id")` and `c.BodyParser` give it and the store, and returns
the response and the store afterwards. `UpdateEvent` and `DeleteEvent` issue two statements
outside a transaction; `env` is what other clients do to the store between the two. The
calls of `logError` and `logInfo` are left out. -/

/-- The body of a response: `fiber.Map{"error": msg}`, an event, a slice of events, or
nothing. The slice is `none` when it is nil, which `c.JSON` writes as `null`, and `some es`
otherwise, written as a JSON array. -/
inductive Body where
  | error (msg : String)
  | event (e : Event)
  | events (es : Option (List Event))
  | empty
  deriving DecidableEq, Repr

/-- The response written to the client. -/
structure Response where
  status : Nat
  body : Body
  deriving DecidableEq, Repr

/-- `CreateEvent`; `body` is `none` when `c.BodyParser(&req)` fails. -/
def CreateEvent (body : Option CreateEventRequest) (db : Store) : Response × Store :=
  match body with
  | none => (⟨400, .error "Invalid request body"⟩, db)
  | some req =>
    if req.Name == "" || req.VenueName == "" || req.Address == "" || req.Date == ""
        || req.Time == "" then
      (⟨400, .error "Name, venue_name, address, date, and time are required"⟩, db)
    else if !validateDateFormat req.Date then
      (⟨400, .error "Invalid date format. Use YYYY-MM-DD format"⟩, db)
    else if !validateTimeFormat req.Time then
      (⟨400, .error "Invalid time format. Use HH:MM:SS format"⟩, db)
    else if (match req.ContactEmail with
        | some email => !validateEmail email
        | none => false) then
      (⟨400, .error "Invalid email format"⟩, db)
    else
      match db.queryRowInsert req with
      | (.error _, db1) => (⟨500, .error "Failed to create event"⟩, db1)
      | (.ok event, db1) => (⟨201, .event event⟩, db1)

/-- `GetAllEvents`. -/
def GetAllEvents (db : Store) : Response × Store :=
  match db.selectAll with
  | (.error _, db1) => (⟨500, .error "Failed to fetch events"⟩, db1)
  | (.ok events, db1) => (⟨200, .events events⟩, db1)

/-- `GetEventByID`. -/
def GetEventByID (id : String) (db : Store) : Response × Store :=
  if id == "" then (⟨400, .error "Event ID is required"⟩, db)
  else
    match db.getByID id with
    | (.error _, db1) => (⟨404, .error "Event not found"⟩, db1)
    | (.ok event, db1) => (⟨200, .event event⟩, db1)

/-- `UpdateEvent`; `body` is `none` when `c.BodyParser(&req)` fails. -/
def UpdateEvent (id : String) (body : Option UpdateEventRequest) (db : Store)
    (env : Store → Store) : Response × Store :=
  if id == "" then (⟨400, .error "Event ID is required"⟩, db)
  else
    match body with
    | none => (⟨400, .error "Invalid request body"⟩, db)
    | some req =>
      if req.Name == "" || req.VenueName == "" || req.Address == "" || req.Date == ""
          || req.Time == "" then
        (⟨400, .error "Name, venue_name, address, date, and time are required"⟩, db)
      else if !validateDateFormat req.Date then
        (⟨400, .error "Invalid date format. Use YYYY-MM-DD format"⟩, db)
      else if !validateTimeFormat req.Time then
        (⟨400, .error "Invalid time format. Use HH:MM:SS format"⟩, db)
      else if (match req.ContactEmail with
          | some email => !validateEmail email
          | none => false) then
        (⟨400, .error "Invalid email format"⟩, db)
      else
        match db.getIDByID id with
        | (.error _, db1) => (⟨404, .error "Event not found"⟩, db1)
        | (.ok _, db1) =>
          match (env db1).queryRowUpdate id req with
          | (.error _, db2) => (⟨500, .error "Failed to update event"⟩, db2)
          | (.ok event, db2) => (⟨200, .event event⟩, db2)

/-- `DeleteEvent`. -/
def DeleteEvent (id : String) (db : Store) (env : Store → Store) : Response × Store :=
  if id == "" then (⟨400, .error "Event ID is required"⟩, db)
  else
    match db.getIDByID id with
    | (.error _, db1) => (⟨404, .error "Event not found"⟩, db1)
    | (.ok _, db1) =>
      match (env db1).execDelete id with
      | (.error _, db2) => (⟨500, .error "Failed to delete event"⟩, db2)
      | (.ok rowsAffected, db2) =>
        if rowsAffected == 0 then (⟨404, .error "Event not found"⟩, db2)
        else (⟨204, .empty⟩, db2)

/-! ## `encoding/json` on `models.Event`

A JSON document is kept as the value it denotes. `json.Marshal` writes one member per
struct field under the name of its `json` tag, none of which has `omitempty`; a string is
written as a JSON string, a nil `*string` as `null`, a `time.Time` as a string in RFC 3339,
kept here as the time it stands for. `json.Unmarshal` goes through the members of an object
in order and stores each into the field whose tag is the member's name. -/

/-- A JSON value. -/
inductive Json where
  | null
  | str (s : String)
  | time (t : Nat)
  | num (n : Int)
  | obj (members : List (String × Json))

/-- A `*string` field as JSON. -/
def Json.ofPtr (p : Option String) : Json :=
  match p with
  | some s => .str s
  | none => .null

/-- `json.Marshal(event)`. -/
def Event.Marshal (e : Event) : Json :=
  .obj [("id", .str e.ID), ("name", .str e.Name), ("description", Json.ofPtr e.Description),
    ("venue_name", .str e.VenueName), ("address", .str e.Address), ("date", .str e.Date),
    ("time", .str e.Time), ("contact_mobile", Json.ofPtr e.ContactMobile),
    ("contact_email", Json.ofPtr e.ContactEmail),
    ("contact_instagram", Json.ofPtr e.ContactInstagram), ("created_at", .time e.CreatedAt),
    ("updated_at", .time e.UpdatedAt)]

/-- Storing a JSON value into a `string` field: `null` leaves the field as it is, a value
of another kind is an `UnmarshalTypeError`. -/
def Json.intoString (v : Json) (old : String) : Except String String :=
  match v with
  | .str s => .ok s
  | .null => .ok old
  | _ => .error "json: cannot unmarshal into Go struct field of type string"

/-- Storing a JSON value into a `*string` field: `null` sets the pointer to nil. -/
def Json.intoPtr (v : Json) : Except String (Option String) :=
  match v with
  | .str s => .ok (some s)
  | .null => .ok none
  | _ => .error "json: cannot unmarshal into Go struct field of type string"

/-- Storing a JSON value into a `time.Time` field. -/
def Json.intoTime (v : Json) (old : Nat) : Except String Nat :=
  match v with
  | .time t => .ok t
  | .null => .ok old
  | _ => .error "parsing time: cannot parse"

/-- One member of the object stored into the event; a member that names no field is
skipped. -/
def Event.setMember (e : Event) (m : String × Json) : Except String Event :=
  if m.1 == "id" then (Json.intoString m.2 e.ID).map (fun v => { e with ID := v })
  else if m.1 == "name" then (Json.intoString m.2 e.Name).map (fun v => { e with Name := v })
  else if m.1 == "description" then
    (Json.intoPtr m.2).map (fun v => { e with Description := v })
  else if m.1 == "venue_name" then
    (Json.intoString m.2 e.VenueName).map (fun v => { e with VenueName := v })
  else if m.1 == "address" then
    (Json.intoString m.2 e.Address).map (fun v => { e with Address := v })
  else if m.1 == "date" then (Json.intoString m.2 e.Date).map (fun v => { e with Date := v })
  else if m.1 == "time" then (Json.intoString m.2 e.Time).map (fun v => { e with Time := v })
  else if m.1 == "contact_mobile" then
    (Json.intoPtr m.2).map (fun v => { e with ContactMobile := v })
  else if m.1 == "contact_email" then
    (Json.intoPtr m.2).map (fun v => { e with ContactEmail := v })
  else if m.1 == "contact_instagram" then
    (Json.intoPtr m.2).map (fun v => { e with ContactInstagram := v })
  else if m.1 == "created_at" then
    (Json.intoTime m.2 e.CreatedAt).map (fun v => { e with CreatedAt := v })
  else if m.1 == "updated_at" then
    (Json.intoTime m.2 e.UpdatedAt).map (fun v => { e with UpdatedAt := v })
  else .ok e

/-- The members of an object stored one after the other. -/
def Event.setMembers : List (String × Json) → Event → Except String Event
  | [], e => .ok e
  | m :: ms, e =>
    match e.setMember m with
    | .error err => .error err
    | .ok e1 => Event.setMembers ms e1

/-- The zero value of `models.Event`, as `var unmarshaled Event` declares it. -/
def Event.zero : Event :=
  { ID := "", Name := "", Description := none, VenueName := "", Address := "", Date := "",
    Time := "", ContactMobile := none, ContactEmail := none, ContactInstagram := none,
    CreatedAt := 0, UpdatedAt := 0 }

/-- `json.Unmarshal(data, &unmarshaled)` into a fresh `Event`. -/
def Event.Unmarshal (j : Json) : Except String Event :=
  match j with
  | .obj members => Event.setMembers members Event.zero
  | .null => .ok Event.zero
  | _ => .error "json: cannot unmarshal into Go value of type models.Event"

/-- The member of a JSON object with the given name. -/
def Json.member (j : Json) (name : String) : Option Json :=
  match j with
  | .obj members => (members.find? (fun m => m.1 == name)).map (fun m => m.2)
  | _ => none

/-! ## Vocabulary of the properties -/

/-- A decimal digit. -/
def isDec (c : Char) : Bool :=
  decide ('0'.toNat ≤ c.toNat) && decide (c.toNat ≤ '9'.toNat)

/-- The value of a decimal digit. -/
def digitVal (c : Char) : Nat :=
  c.toNat - '0'.toNat

/-- The number written by a string of decimal digits. -/
def decimal (ds : List Char) : Nat :=
  ds.foldl (fun n c => 10 * n + digitVal c) 0

/-- The Gregorian leap-year rule: divisible by 4 and not by 100, or divisible by 400. -/
def leapYear (y : Nat) : Bool :=
  (y % 4 == 0 && y % 100 != 0) || y % 400 == 0

/-- The number of days of month `m` (1 to 12) in year `y`. -/
def daysInMonth (y m : Nat) : Nat :=
  match m with
  | 1 => 31
  | 2 => if leapYear y then 29 else 28
  | 3 => 31
  | 4 => 30
  | 5 => 31
  | 6 => 30
  | 7 => 31
  | 8 => 31
  | 9 => 30
  | 10 => 31
  | 11 => 30
  | 12 => 31
  | _ => 0

/-- A sub-second suffix: one of the separators `seps`, then one or more decimal digits. -/
def isFraction (seps : List Char) (frac : List Char) : Prop :=
  ∃ sep ds, frac = sep :: ds ∧ sep ∈ seps ∧ ds ≠ [] ∧ ∀ c ∈ ds, isDec c = true

/-- The texts `hour:MM:SS` with an optional sub-second suffix: the hour is written with a
number of digits from `hourLens` and is below 24, minute and second have two digits and
are below 60, and the suffix, if there is one, starts with a separator from `seps`. -/
def timeForm (hourLens : List Nat) (seps : List Char) (l : List Char) : Prop :=
  ∃ hh m1 m2 s1 s2 frac, l = hh ++ [':', m1, m2, ':', s1, s2] ++ frac ∧
    hh.length ∈ hourLens ∧ (∀ c ∈ hh, isDec c = true) ∧
    isDec m1 = true ∧ isDec m2 = true ∧ isDec s1 = true ∧ isDec s2 = true ∧
    decimal hh < 24 ∧ decimal [m1, m2] < 60 ∧ decimal [s1, s2] < 60 ∧
    (frac = [] ∨ isFraction seps frac)

/-- An ASCII letter. -/
def isAsciiLetter (c : Char) : Bool :=
  (decide ('a'.toNat ≤ c.toNat) && decide (c.toNat ≤ 'z'.toNat)) ||
    (decide ('A'.toNat ≤ c.toNat) && decide (c.toNat ≤ 'Z'.toNat))

/-- The texts `local@domain.tld`: a non-empty local part over ASCII letters, digits and
`.`, `_`, `%`, `+`, `-`, a non-empty domain over ASCII letters, digits, `.` and `-`, and a
last label of two or more ASCII letters. -/
def emailForm (l : List Char) : Prop :=
  ∃ loc dom tld : List Char, l = loc ++ ['@'] ++ dom ++ ['.'] ++ tld ∧
    loc ≠ [] ∧
    (∀ c ∈ loc, isAsciiLetter c = true ∨ isDec c = true ∨ c ∈ ['.', '_', '%', '+', '-']) ∧
    dom ≠ [] ∧
    (∀ c ∈ dom, isAsciiLetter c = true ∨ isDec c = true ∨ c ∈ ['.', '-']) ∧
    2 ≤ tld.length ∧ (∀ c ∈ tld, isAsciiLetter c = true)

/-- At least one of name, venue_name, address, date, time is empty. -/
def CreateEventRequest.missingRequired (req : CreateEventRequest) : Prop :=
  req.Name = "" ∨ req.VenueName = "" ∨ req.Address = "" ∨ req.Date = "" ∨ req.Time = ""

/-- At least one of name, venue_name, address, date, time is empty. -/
def UpdateEventRequest.missingRequired (req : UpdateEventRequest) : Prop :=
  req.Name = "" ∨ req.VenueName = "" ∨ req.Address = "" ∨ req.Date = "" ∨ req.Time = ""

/-- The request fails the required-field, date, time or e-mail check. -/
def CreateEventRequest.failsValidation (req : CreateEventRequest) : Prop :=
  req.missingRequired ∨ validateDateFormat req.Date = false ∨
    validateTimeFormat req.Time = false ∨
    ∃ email, req.ContactEmail = some email ∧ validateEmail email = false

/-- The request fails the required-field, date, time or e-mail check. -/
def UpdateEventRequest.failsValidation (req : UpdateEventRequest) : Prop :=
  req.missingRequired ∨ validateDateFormat req.Date = false ∨
    validateTimeFormat req.Time = false ∨
    ∃ email, req.ContactEmail = some email ∧ validateEmail email = false

/-- The request passes the required-field, date, time and e-mail checks. -/
def CreateEventRequest.passesValidation (req : CreateEventRequest) : Prop :=
  ¬ req.missingRequired ∧ validateDateFormat req.Date = true ∧
    validateTimeFormat req.Time = true ∧
    ∀ email, req.ContactEmail = some email → validateEmail email = true

/-- The request passes the required-field, date, time and e-mail checks. -/
def UpdateEventRequest.passesValidation (req : UpdateEventRequest) : Prop :=
  ¬ req.missingRequired ∧ validateDateFormat req.Date = true ∧
    validateTimeFormat req.Time = true ∧
    ∀ email, req.ContactEmail = some email → validateEmail email = true

/-- The values of the request fit the widths of the `VARCHAR` columns. -/
def CreateEventRequest.fitsColumns (req : CreateEventRequest) : Prop :=
  req.Name.length ≤ 255 ∧ req.VenueName.length ≤ 255 ∧
    (∀ v, req.ContactMobile = some v → v.length ≤ 20) ∧
    (∀ v, req.ContactEmail = some v → v.length ≤ 255) ∧
    (∀ v, req.ContactInstagram = some v → v.length ≤ 100)

/-- A store with no rows and a working connection. -/
def emptyStore : Store :=
  { rows := [], fault := none, uuid := fun n => "event-" ++ toString n, inserted := 0,
    now := 0, log := [], dateIn := Store.isoDate, timeIn := Store.isoTime }

/-- A store whose connection is down. -/
def downStore : Store :=
  { emptyStore with fault := some "connection refused" }

/-- The request of the test "missing required fields", with a malformed e-mail added. -/
def missingFieldsRequest : CreateEventRequest :=
  { Name := "Test Event", Description := none, VenueName := "", Address := "", Date := "",
    Time := "", ContactMobile := none, ContactEmail := some "invalid-email",
    ContactInstagram := none }

/-- The same values as an update. -/
def missingFieldsUpdate : UpdateEventRequest :=
  { Name := "Test Event", Description := none, VenueName := "", Address := "", Date := "",
    Time := "", ContactMobile := none, ContactEmail := some "invalid-email",
    ContactInstagram := none }

/-- A request that passes validation and fits the columns. -/
def sampleRequest : CreateEventRequest :=
  { Name := "Test Event", Description := none, VenueName := "Test Venue",
    Address := "Test Address", Date := "2024-03-15", Time := "14:30:00",
    ContactMobile := none, ContactEmail := some "test@example.com", ContactInstagram := none }

/-- The same values as an update. -/
def sampleUpdate : UpdateEventRequest :=
  { Name := "Test Event", Description := none, VenueName := "Test Venue",
    Address := "Test Address", Date := "2024-03-15", Time := "14:30:00",
    ContactMobile := none, ContactEmail := some "test@example.com", ContactInstagram := none }

/-- A request that passes validation with a mobile number of 25 characters. -/
def longMobileRequest : CreateEventRequest :=
  { sampleRequest with ContactMobile := some "+61 400 000 000 ext 12345" }

/-- The two requests carry the same values. -/
def sameValues (req : CreateEventRequest) (ureq : UpdateEventRequest) : Prop :=
  req.Name = ureq.Name ∧ req.Description = ureq.Description ∧
    req.VenueName = ureq.VenueName ∧ req.Address = ureq.Address ∧ req.Date = ureq.Date ∧
    req.Time = ureq.Time ∧ req.ContactMobile = ureq.ContactMobile ∧
    req.ContactEmail = ureq.ContactEmail ∧ req.ContactInstagram = ureq.ContactInstagram

/-- The identifier used by the tests of the handlers. -/
def sampleID : String := "123e4567-e89b-12d3-a456-426614174000"

/-- A row of the table with the identifier `sampleID`. -/
def storedEvent : Event :=
  { ID := sampleID, Name := "Test Event", Description := none, VenueName := "Test Venue",
    Address := "Test Address", Date := "2024-03-15", Time := "14:30:00", ContactMobile := none,
    ContactEmail := none, ContactInstagram := none, CreatedAt := 0, UpdatedAt := 0 }

/-- A store that holds `storedEvent` and no other row. -/
def oneRowStore : Store :=
  { emptyStore with rows := [storedEvent] }

/-- Another client that runs `DELETE FROM events WHERE id = $1`. -/
def concurrentDelete (id : String) : Store → Store :=
  fun db => (db.execDelete id).2

/-- The sample request dated 2024-03-16. -/
def march16Request : CreateEventRequest :=
  { sampleRequest with Date := "2024-03-16" }

/-- The empty store after the event of 2024-03-16 and then that of 2024-03-15 have been
created. -/
def twoEventStore : Store :=
  (CreateEvent (some sampleRequest) (CreateEvent (some march16Request) emptyStore).2).2

/-- An event whose description is the empty string. -/
def emptyDescriptionEvent : Event :=
  { storedEvent with Description := some "" }

/-! ## Lemmas on `time.Parse` -/

namespace GoTime

theorem isDigit_nil (i : Nat) : isDigit [] i = false := by
  simp [isDigit]

theorem isDigit_cons_zero (c : Char) (s : List Char) : isDigit (c :: s) 0 = isDec c := by
  simp [isDigit, isDec]

theorem isDigit_cons_succ (c : Char) (s : List Char) (i : Nat) :
    isDigit (c :: s) (i + 1) = isDigit s i := by
  simp [isDigit]

theorem isDec_iff (c : Char) : isDec c = true ↔ 48 ≤ c.toNat ∧ c.toNat ≤ 57 := by
  simp [isDec]

theorem digitVal_le (c : Char) (h : isDec c = true) : digitVal c ≤ 9 := by
  rw [isDec_iff] at h
  simp only [digitVal, Char.reduceToNat]
  omega

theorem getnum_nil (fixed : Bool) : getnum [] fixed = .error .errBad := by
  simp [getnum, isDigit_nil]

theorem getnum_fixed_single (a : Char) : getnum [a] true = .error .errBad := by
  simp [getnum, isDigit_cons_succ, isDigit_nil]

theorem getnum_fixed_cons (a b : Char) (r : List Char) :
    getnum (a :: b :: r) true =
      if isDec a = true ∧ isDec b = true then .ok ((decimal [a, b] : Nat), r)
      else .error .errBad := by
  simp only [getnum, isDigit_cons_zero, isDigit_cons_succ]
  by_cases ha : isDec a = true <;> by_cases hb : isDec b = true <;>
    simp [ha, hb, byteAt, decimal, digitVal]
  ring

theorem getnum_fixed_ok_iff (s : List Char) (n : Int) (r : List Char) :
    getnum s true = .ok (n, r) ↔
      ∃ a b, s = a :: b :: r ∧ isDec a = true ∧ isDec b = true ∧ n = (decimal [a, b] : Nat) := by
  rcases s with _ | ⟨a, _ | ⟨b, t⟩⟩
  · simp [getnum_nil]
  · simp [getnum_fixed_single]
  · rw [getnum_fixed_cons]
    by_cases h : isDec a = true ∧ isDec b = true
    · rw [if_pos h]
      constructor
      · intro e
        injection e with e
        injection e with e1 e2
        exact ⟨a, b, by rw [e2], h.1, h.2, e1.symm⟩
      · rintro ⟨a1, b1, e, -, -, hn⟩
        injection e with ea e
        injection e with eb er
        subst ea eb er
        rw [hn]
    · rw [if_neg h]
      constructor
      · intro e
        cases e
      · rintro ⟨a1, b1, e, ha, hb, -⟩
        injection e with ea e
        injection e with eb er
        subst ea eb
        exact absurd ⟨ha, hb⟩ h

theorem skip_nil (value : List Char) : skip value [] = .ok value := by
  simp [skip, skipLoop]

theorem skip_single (p : Char) (hp : (p == ' ') = false) (value : List Char) :
    skip value [p] =
      match value with
      | [] => .error .errBad
      | v :: vs => if v = p then .ok vs else .error .errBad := by
  cases value with
  | nil => simp [skip, skipLoop, hp]
  | cons v vs =>
    by_cases h : v = p
    · simp [skip, skipLoop, hp, h]
    · simp [skip, skipLoop, hp, h]

theorem skip_single_ok_iff (p : Char) (hp : (p == ' ') = false) (value r : List Char) :
    skip value [p] = .ok r ↔ value = p :: r := by
  rw [skip_single p hp]
  cases value with
  | nil => simp
  | cons v vs =>
    by_cases h : v = p
    · simp [h]
    · simp [h]

theorem isDec_not_sign (c : Char) (h : isDec c = true) : (c == '-' || c == '+') = false := by
  rw [isDec_iff] at h
  have h1 : c ≠ '-' := by
    intro e
    rw [e] at h
    simp at h
  have h2 : c ≠ '+' := by
    intro e
    rw [e] at h
    simp at h
  simp [h1, h2]

theorem isDec_not_minus (c : Char) (h : isDec c = true) : (c == '-') = false := by
  have := isDec_not_sign c h
  simp only [Bool.or_eq_false_iff] at this
  exact this.1

theorem isDec_not_plus (c : Char) (h : isDec c = true) : (c == '+') = false := by
  have := isDec_not_sign c h
  simp only [Bool.or_eq_false_iff] at this
  exact this.2

/-- On a string of digits that cannot overflow, `leadingInt` reads the whole string. -/
theorem leadingInt_digits (ds : List Char) :
    ∀ x : Nat, (∀ c ∈ ds, isDec c = true) → (x + 1) * 10 ^ ds.length ≤ 10 ^ 18 →
      leadingInt ds x = .ok (ds.foldl (fun n c => 10 * n + digitVal c) x, []) := by
  induction ds with
  | nil => intro x _ _; simp [leadingInt]
  | cons c ds ih =>
    intro x hd hx
    have hc : isDec c = true := hd c (List.mem_cons_self _ _)
    have hc2 := (isDec_iff c).1 hc
    have hpos : 1 ≤ 10 ^ ds.length := Nat.one_le_pow _ _ (by norm_num)
    have hx10 : (x + 1) * 10 ≤ 10 ^ 18 := by
      have h1 : (x + 1) * 10 * 1 ≤ (x + 1) * 10 * 10 ^ ds.length := Nat.mul_le_mul_left _ hpos
      have h2 : (x + 1) * 10 * 10 ^ ds.length = (x + 1) * 10 ^ (c :: ds).length := by
        simp [pow_succ]; ring
      omega
    have hnext : (x * 10 + c.toNat - 48 + 1) * 10 ^ ds.length ≤ 10 ^ 18 := by
      have h1 : (x * 10 + c.toNat - 48 + 1) ≤ (x + 1) * 10 := by omega
      have h2 : (x + 1) * 10 * 10 ^ ds.length = (x + 1) * 10 ^ (c :: ds).length := by
        simp [pow_succ]; ring
      calc (x * 10 + c.toNat - 48 + 1) * 10 ^ ds.length
          ≤ (x + 1) * 10 * 10 ^ ds.length := Nat.mul_le_mul_right _ h1
        _ = (x + 1) * 10 ^ (c :: ds).length := h2
        _ ≤ 10 ^ 18 := hx
    have hrec := ih (x * 10 + c.toNat - 48) (fun d hd1 => hd d (List.mem_cons_of_mem _ hd1)) hnext
    have e1 : ¬ (c.toNat < 48 ∨ 57 < c.toNat) := by omega
    have e2 : ¬ (2 ^ 63 / 10 < x) := by norm_num; omega
    have e3 : ¬ (2 ^ 63 < x * 10 + c.toNat - 48) := by norm_num; omega
    have e4 : 10 * x + digitVal c = x * 10 + c.toNat - 48 := by
      simp only [digitVal, Char.reduceToNat]; omega
    simp only [leadingInt, Char.reduceToNat, Bool.or_eq_true, decide_eq_true_eq, e1, e2, e3,
      if_false, List.foldl_cons, e4]
    exact hrec

/-- On a string with a character that is no digit, `leadingInt` fails or leaves a rest. -/
theorem leadingInt_not_digits (ds : List Char) :
    ∀ x : Nat, (∃ c ∈ ds, isDec c = false) →
      ∀ q, leadingInt ds x ≠ .ok (q, []) := by
  induction ds with
  | nil => intro x h; simp at h
  | cons c ds ih =>
    intro x h q
    by_cases hc : isDec c = true
    · have hrest : ∃ d ∈ ds, isDec d = false := by
        obtain ⟨d, hd, hd2⟩ := h
        rcases List.mem_cons.1 hd with e | e
        · rw [e, hc] at hd2; cases hd2
        · exact ⟨d, e, hd2⟩
      have hc2 := (isDec_iff c).1 hc
      have e1 : ¬ (c.toNat < 48 ∨ 57 < c.toNat) := by omega
      simp only [leadingInt, Char.reduceToNat, Bool.or_eq_true, decide_eq_true_eq, e1, if_false]
      split
      · simp
      · split
        · simp
        · exact ih _ hrest q
    · have e1 : (c.toNat < 48 ∨ 57 < c.toNat) := by
        rw [isDec_iff] at hc; omega
      simp [leadingInt, e1]

theorem toInt64_small (q : Nat) (h : q < 2 ^ 63) : toInt64 q = (q : Int) := by
  have h1 : q % 2 ^ 64 = q := Nat.mod_eq_of_lt (by omega)
  unfold toInt64
  rw [h1, if_pos h]

theorem decimal_lt (ds : List Char) (hd : ∀ c ∈ ds, isDec c = true) :
    ∀ x, ds.foldl (fun n c => 10 * n + digitVal c) x < (x + 1) * 10 ^ ds.length := by
  induction ds with
  | nil => intro x; simp
  | cons c ds ih =>
    intro x
    have hc := digitVal_le c (hd c (List.mem_cons_self _ _))
    have h1 := ih (fun d hd1 => hd d (List.mem_cons_of_mem _ hd1)) (10 * x + digitVal c)
    have h2 : (10 * x + digitVal c + 1) * 10 ^ ds.length ≤ (x + 1) * 10 * 10 ^ ds.length :=
      Nat.mul_le_mul_right _ (by omega)
    have h3 : (x + 1) * 10 * 10 ^ ds.length = (x + 1) * 10 ^ (c :: ds).length := by
      simp [pow_succ]; ring
    simp only [List.foldl_cons]
    omega

/-- `atoi` on a non-empty string of at most 17 digits returns the number written. -/
theorem atoi_digits (c : Char) (ds : List Char) (hd : ∀ d ∈ c :: ds, isDec d = true)
    (hlen : (c :: ds).length ≤ 17) : atoi (c :: ds) = .ok ((decimal (c :: ds) : Nat) : Int) := by
  have hc : isDec c = true := hd c (List.mem_cons_self _ _)
  have hpow : 10 ^ (c :: ds).length ≤ 10 ^ 17 := Nat.pow_le_pow_right (by norm_num) hlen
  have hb : (0 + 1) * 10 ^ (c :: ds).length ≤ 10 ^ 18 := by omega
  have hl := leadingInt_digits (c :: ds) 0 hd hb
  have hlt := decimal_lt (c :: ds) hd 0
  have hsmall : decimal (c :: ds) < 2 ^ 63 := by
    unfold decimal; omega
  simp only [atoi, isDec_not_plus c hc, isDec_not_minus c hc, Bool.or_false, if_false,
    Bool.false_eq_true]
  rw [hl]
  have hv := toInt64_small _ hsmall
  unfold decimal at hv
  simp only [List.length_nil, gt_iff_lt, lt_self_iff_false, if_false, hv]
  rfl

/-- `atoi` fails on a string that starts with a digit and has a character that is none. -/
theorem atoi_not_digits (c : Char) (ds : List Char) (hc : isDec c = true)
    (hd : ∃ d ∈ c :: ds, isDec d = false) : atoi (c :: ds) = .error .errAtoi := by
  have hl := leadingInt_not_digits (c :: ds) 0 hd
  simp only [atoi, isDec_not_plus c hc, isDec_not_minus c hc, Bool.or_false, if_false,
    Bool.false_eq_true]
  cases hres : leadingInt (c :: ds) 0 with
  | error e => rfl
  | ok v =>
    obtain ⟨q, rem⟩ := v
    cases rem with
    | nil => exact absurd hres (hl q)
    | cons r rs => simp

/-- The year element accepts exactly four digits. -/
theorem stdCase_year_ok_iff (next : Option Std) (value : List Char) (t t1 : Fields)
    (v1 : List Char) :
    stdCase .stdLongYear next value t = .ok (t1, v1) ↔
      ∃ y1 y2 y3 y4, value = y1 :: y2 :: y3 :: y4 :: v1 ∧ isDec y1 = true ∧ isDec y2 = true ∧
        isDec y3 = true ∧ isDec y4 = true ∧
        t1 = { t with year := ((decimal [y1, y2, y3, y4] : Nat) : Int) } := by
  rcases value with _ | ⟨y1, _ | ⟨y2, _ | ⟨y3, _ | ⟨y4, r⟩⟩⟩⟩
  · simp [stdCase]
  · simp [stdCase]
  · simp [stdCase]
  · simp [stdCase]
  · by_cases h1 : isDec y1 = true
    · by_cases hall : ∀ d ∈ [y1, y2, y3, y4], isDec d = true
      · have ha := atoi_digits y1 [y2, y3, y4] hall (by simp)
        have h2 := hall y2 (by simp)
        have h3 := hall y3 (by simp)
        have h4 := hall y4 (by simp)
        have hl : ¬ (r.length + 1 + 1 + 1 + 1 < 4) := by omega
        simp only [stdCase, List.length_cons, isDigit_cons_zero, h1, List.take_succ_cons,
          List.take_zero, ha, List.drop_succ_cons, List.drop_zero, hl, decide_False,
          Bool.not_true, Bool.or_self, Bool.false_eq_true, if_false]
        constructor
        · intro e
          simp at e
          exact ⟨y1, y2, y3, y4, by rw [e.2], h1, h2, h3, h4, e.1.symm⟩
        · rintro ⟨z1, z2, z3, z4, e, -, -, -, -, ht⟩
          simp only [List.cons.injEq] at e
          obtain ⟨e1, e2, e3, e4, e5⟩ := e
          subst e1 e2 e3 e4 e5
          simp [ht]
      · have hex : ∃ d ∈ y1 :: [y2, y3, y4], isDec d = false := by
          by_contra hn
          apply hall
          intro d hd
          by_contra hd2
          exact hn ⟨d, hd, by simpa using hd2⟩
        have ha := atoi_not_digits y1 [y2, y3, y4] h1 hex
        have hl : ¬ (r.length + 1 + 1 + 1 + 1 < 4) := by omega
        simp only [stdCase, List.length_cons, isDigit_cons_zero, h1, List.take_succ_cons,
          List.take_zero, ha, List.drop_succ_cons, List.drop_zero, hl, decide_False,
          Bool.not_true, Bool.or_self, Bool.false_eq_true, if_false]
        constructor
        · intro e
          simp at e
        · rintro ⟨z1, z2, z3, z4, e, g1, g2, g3, g4, -⟩
          simp only [List.cons.injEq] at e
          obtain ⟨e1, e2, e3, e4, -⟩ := e
          subst e1 e2 e3 e4
          exfalso
          apply hall
          intro d hd
          simp only [List.mem_cons, List.mem_singleton, List.not_mem_nil, or_false] at hd
          rcases hd with rfl | rfl | rfl | rfl <;> assumption
    · simp only [stdCase, List.length_cons, isDigit_cons_zero, h1]
      constructor
      · intro e
        simp at e
      · rintro ⟨z1, z2, z3, z4, e, g1, -⟩
        simp only [List.cons.injEq] at e
        rw [← e.1] at g1
        exact absurd g1 h1

/-- What the element loop accepts for the layout `2006-01-02`. -/
theorem parseLoop_date_ok_iff (l : List Char) (t : Fields) :
    parseLoop dateLayout.chunks dateLayout.rest l {} = .ok t ↔
      ∃ y1 y2 y3 y4 m1 m2 d1 d2, l = [y1, y2, y3, y4, '-', m1, m2, '-', d1, d2] ∧
        isDec y1 = true ∧ isDec y2 = true ∧ isDec y3 = true ∧ isDec y4 = true ∧
        isDec m1 = true ∧ isDec m2 = true ∧ isDec d1 = true ∧ isDec d2 = true ∧
        1 ≤ decimal [m1, m2] ∧ decimal [m1, m2] ≤ 12 ∧
        t = { year := ((decimal [y1, y2, y3, y4] : Nat) : Int),
              month := ((decimal [m1, m2] : Nat) : Int),
              day := ((decimal [d1, d2] : Nat) : Int) } := by
  have hdash : ('-' == ' ') = false := by decide
  simp only [dateLayout, parseLoop, skip_nil, List.head?_cons, List.head?_nil, Option.map_some',
    Option.map_none']
  constructor
  · intro h
    split at h
    · cases h
    · rename_i x t1 v1 hyear
      obtain ⟨y1, y2, y3, y4, rfl, hy1, hy2, hy3, hy4, rfl⟩ := (stdCase_year_ok_iff _ _ _ _ _).1 hyear
      split at h
      · cases h
      · rename_i x2 v2 hskip
        rw [skip_single_ok_iff _ hdash] at hskip
        subst hskip
        split at h
        · cases h
        · rename_i x3 t3 v3 hmonth
          simp only [stdCase] at hmonth
          split at hmonth
          · cases hmonth
          · rename_i x4 m v4 hget
            obtain ⟨m1, m2, rfl, hm1, hm2, rfl⟩ := (getnum_fixed_ok_iff _ _ _).1 hget
            split at hmonth
            · cases hmonth
            · rename_i hrange
              injection hmonth with hmonth
              injection hmonth with ht3 hv3
              subst ht3 hv3
              split at h
              · cases h
              · rename_i x5 v5 hskip2
                rw [skip_single_ok_iff _ hdash] at hskip2
                subst hskip2
                split at h
                · cases h
                · rename_i x6 t6 v6 hday
                  simp only [stdCase] at hday
                  split at hday
                  · cases hday
                  · rename_i x7 d v7 hget2
                    obtain ⟨d1, d2, rfl, hd1, hd2, rfl⟩ := (getnum_fixed_ok_iff _ _ _).1 hget2
                    injection hday with hday
                    injection hday with ht6 hv6
                    subst ht6 hv6
                    split at h
                    · cases h
                    · rename_i hlen
                      injection h with h
                      have hnil : v7 = [] := by
                        simpa using hlen
                      subst hnil
                      simp only [Bool.or_eq_true, decide_eq_true_eq, not_or, not_le, not_lt]
                        at hrange
                      refine ⟨y1, y2, y3, y4, m1, m2, d1, d2, rfl, hy1, hy2, hy3, hy4, hm1, hm2,
                        hd1, hd2, ?_, ?_, h.symm⟩
                      · omega
                      · omega
  · rintro ⟨y1, y2, y3, y4, m1, m2, d1, d2, rfl, hy1, hy2, hy3, hy4, hm1, hm2, hd1, hd2, hlo,
      hhi, rfl⟩
    have hyear := (stdCase_year_ok_iff (some .stdZeroMonth)
      [y1, y2, y3, y4, '-', m1, m2, '-', d1, d2] {} _ ['-', m1, m2, '-', d1, d2]).2
      ⟨y1, y2, y3, y4, rfl, hy1, hy2, hy3, hy4, rfl⟩
    have hr : ¬ ((decimal [m1, m2] : Int) ≤ 0 ∨ (12 : Int) < (decimal [m1, m2] : Int)) := by
      omega
    have hr2 : ¬ (decimal [m1, m2] = 0 ∨ 12 < decimal [m1, m2]) := by
      omega
    rw [hyear]
    simp [skip_single _ hdash, stdCase, getnum_fixed_cons, hm1, hm2, hd1, hd2, hr, hr2]

theorem getnum_free_single (a : Char) :
    getnum [a] false = if isDec a = true then .ok ((decimal [a] : Nat), []) else .error .errBad := by
  by_cases ha : isDec a = true <;>
    simp [getnum, isDigit_cons_zero, isDigit_cons_succ, isDigit_nil, ha, byteAt, decimal,
      digitVal]

theorem getnum_free_cons (a b : Char) (r : List Char) :
    getnum (a :: b :: r) false =
      if isDec a = true then
        if isDec b = true then .ok ((decimal [a, b] : Nat), r)
        else .ok ((decimal [a] : Nat), b :: r)
      else .error .errBad := by
  simp only [getnum, isDigit_cons_zero, isDigit_cons_succ]
  by_cases ha : isDec a = true <;> by_cases hb : isDec b = true <;>
    simp [ha, hb, byteAt, decimal, digitVal]
  ring

/-- What `getnum(s, false)` accepts: two digits, or one digit not followed by a digit. -/
theorem getnum_free_ok_iff (s : List Char) (n : Int) (r : List Char) :
    getnum s false = .ok (n, r) ↔
      (∃ a b, s = a :: b :: r ∧ isDec a = true ∧ isDec b = true ∧ n = (decimal [a, b] : Nat)) ∨
      (∃ a, s = a :: r ∧ isDec a = true ∧ isDigit r 0 = false ∧ n = (decimal [a] : Nat)) := by
  rcases s with _ | ⟨a, _ | ⟨b, t⟩⟩
  · simp [getnum_nil]
  · rw [getnum_free_single]
    by_cases ha : isDec a = true
    · simp only [ha, if_true, Except.ok.injEq, Prod.mk.injEq]
      constructor
      · rintro ⟨e1, e2⟩
        right
        exact ⟨a, by rw [← e2], ha, by rw [← e2]; exact isDigit_nil 0, e1.symm⟩
      · rintro (⟨a1, b1, e, -⟩ | ⟨a1, e, -, -, hn⟩)
        · simp at e
        · simp only [List.cons.injEq] at e
          obtain ⟨e1, e2⟩ := e
          subst e1 e2
          exact ⟨hn.symm, rfl⟩
    · simp only [ha, if_false, Bool.false_eq_true]
      constructor
      · intro e; cases e
      · rintro (⟨a1, b1, e, -⟩ | ⟨a1, e, ha1, -⟩)
        · simp at e
        · simp only [List.cons.injEq] at e
          rw [← e.1] at ha1
          exact absurd ha1 ha
  · rw [getnum_free_cons]
    by_cases ha : isDec a = true
    · by_cases hb : isDec b = true
      · simp only [ha, hb, if_true, Except.ok.injEq, Prod.mk.injEq]
        constructor
        · rintro ⟨e1, e2⟩
          left
          exact ⟨a, b, by rw [e2], ha, hb, e1.symm⟩
        · rintro (⟨a1, b1, e, -, -, hn⟩ | ⟨a1, e, -, hnd, -⟩)
          · simp only [List.cons.injEq] at e
            obtain ⟨e1, e2, e3⟩ := e
            subst e1 e2 e3
            exact ⟨hn.symm, rfl⟩
          · simp only [List.cons.injEq] at e
            obtain ⟨-, e2⟩ := e
            rw [← e2, isDigit_cons_zero, hb] at hnd
            cases hnd
      · simp only [ha, hb, if_true, if_false, Bool.false_eq_true, Except.ok.injEq,
          Prod.mk.injEq]
        constructor
        · rintro ⟨e1, e2⟩
          right
          refine ⟨a, by rw [e2], ha, ?_, e1.symm⟩
          rw [← e2, isDigit_cons_zero]
          simpa using hb
        · rintro (⟨a1, b1, e, -, hb1, -⟩ | ⟨a1, e, -, -, hn⟩)
          · simp only [List.cons.injEq] at e
            rw [← e.2.1] at hb1
            exact absurd hb1 hb
          · simp only [List.cons.injEq] at e
            obtain ⟨e1, e2⟩ := e
            subst e1 e2
            exact ⟨hn.symm, rfl⟩
    · simp only [ha, if_false, Bool.false_eq_true]
      constructor
      · intro e; cases e
      · rintro (⟨a1, b1, e, ha1, -⟩ | ⟨a1, e, ha1, -⟩)
        · simp only [List.cons.injEq] at e
          rw [← e.1] at ha1
          exact absurd ha1 ha
        · simp only [List.cons.injEq] at e
          rw [← e.1] at ha1
          exact absurd ha1 ha

theorem isDigit_append_length (pre : List Char) (c : Char) (suf : List Char) :
    isDigit (pre ++ c :: suf) pre.length = isDec c := by
  have h : (pre ++ c :: suf).get? pre.length = some c := by
    rw [List.get?_eq_getElem?, List.getElem?_append_right (le_refl _)]
    simp
  unfold isDigit
  rw [h]
  rfl

/-- The scan for the end of the fraction stops at the first character that is no digit. -/
theorem fracEnd_eq (fuel : Nat) :
    ∀ pre suf : List Char, suf.length ≤ fuel →
      fracEnd fuel (pre ++ suf) pre.length = pre.length + (suf.takeWhile isDec).length := by
  induction fuel with
  | zero =>
    intro pre suf h
    have : suf = [] := List.length_eq_zero.1 (by omega)
    subst this
    simp [fracEnd]
  | succ fuel ih =>
    intro pre suf h
    cases suf with
    | nil => simp [fracEnd]
    | cons c suf =>
      have hlt : pre.length < (pre ++ c :: suf).length := by simp
      by_cases hc : isDec c = true
      · have h2 := ih (pre ++ [c]) suf (by simp at h; omega)
        simp only [List.append_assoc, List.singleton_append, List.length_append,
          List.length_singleton] at h2
        simp only [fracEnd, hlt, isDigit_append_length, hc, decide_True, Bool.and_self, if_true,
          List.takeWhile_cons, List.length_cons, h2]
        omega
      · simp [fracEnd, hlt, isDigit_append_length, hc, List.takeWhile_cons]

theorem takeWhile_length_eq_iff (p : Char → Bool) (l : List Char) :
    l.drop (l.takeWhile p).length = [] ↔ ∀ c ∈ l, p c = true := by
  induction l with
  | nil => simp
  | cons a l ih =>
    by_cases ha : p a = true
    · simp [List.takeWhile_cons, ha, ih]
    · simp [List.takeWhile_cons, ha]

/-- `parseNanoseconds` succeeds on a separator followed by digits, however many. -/
theorem parseNanoseconds_ok (sep d : Char) (ds : List Char) (hsep : commaOrPeriod sep = true)
    (hd : isDec d = true) (hds : ∀ c ∈ ds, isDec c = true) :
    ∃ ns, parseNanoseconds (sep :: d :: ds) (sep :: d :: ds).length = .ok ns := by
  have hall : ∀ c ∈ d :: ds.take 8, isDec c = true := by
    intro c hc
    rcases List.mem_cons.1 hc with e | e
    · rw [e]; exact hd
    · exact hds c (List.mem_of_mem_take e)
  have hlen : (d :: ds.take 8).length ≤ 17 := by
    simp only [List.length_cons, List.length_take]
    omega
  have ha := atoi_digits d (ds.take 8) hall hlen
  have harg : ((if (sep :: d :: ds).length > 10 then (sep :: d :: ds).take 10
      else sep :: d :: ds).take (if (sep :: d :: ds).length > 10 then 10
      else (sep :: d :: ds).length)).drop 1 = d :: ds.take 8 := by
    by_cases hl : (sep :: d :: ds).length > 10
    · rw [if_pos hl, if_pos hl]
      simp [List.take_take]
    · simp only [hl, if_false, List.take_length, List.drop_succ_cons, List.drop_zero]
      have : ds.length ≤ 8 := by
        simp only [List.length_cons] at hl
        omega
      rw [List.take_of_length_le this]
  simp only [parseNanoseconds, hsep, Bool.not_true, Bool.false_eq_true, if_false, harg, ha]
  have hnn : ¬ (((decimal (d :: ds.take 8) : Nat) : Int) < 0) := by omega
  simp only [hnn, if_false]
  exact ⟨_, rfl⟩

theorem commaOrPeriod_iff (c : Char) : commaOrPeriod c = true ↔ c ∈ ['.', ','] := by
  simp [commaOrPeriod]

theorem fracEnd_drop (v0 v1 : Char) (rest : List Char) :
    (v0 :: v1 :: rest).drop (fracEnd (v0 :: v1 :: rest).length (v0 :: v1 :: rest) 2) =
      rest.drop (rest.takeWhile isDec).length := by
  have h := fracEnd_eq (v0 :: v1 :: rest).length [v0, v1] rest
    (by simp only [List.length_cons]; omega)
  simp only [List.cons_append, List.nil_append, List.length_cons, List.length_nil] at h
  simp only [List.length_cons]
  rw [h]
  have e : 0 + 1 + 1 + (List.takeWhile isDec rest).length
      = (List.takeWhile isDec rest).length + 1 + 1 := by omega
  rw [e]
  rfl

/-- When the seconds element consumes the rest of the input, the input was two digits
below 60 and an optional fraction; year, month and day are left as they were. -/
theorem stdCase_second_ok (value : List Char) (t t1 : Fields)
    (h : stdCase .stdZeroSecond none value t = .ok (t1, [])) :
    (∃ s1 s2 v, value = s1 :: s2 :: v ∧ isDec s1 = true ∧ isDec s2 = true ∧
      decimal [s1, s2] < 60 ∧ (v = [] ∨ isFraction ['.', ','] v)) ∧
    t1.year = t.year ∧ t1.month = t.month ∧ t1.day = t.day := by
  simp only [stdCase] at h
  split at h
  · cases h
  · rename_i x sec v hget
    obtain ⟨s1, s2, rfl, hs1, hs2, rfl⟩ := (getnum_fixed_ok_iff _ _ _).1 hget
    split at h
    · cases h
    · rename_i hrange
      simp only [Bool.or_eq_true, decide_eq_true_eq, not_or, not_le, not_lt] at hrange
      have hlt : decimal [s1, s2] < 60 := by omega
      split at h
      · rename_i v0 v1 rest
        split at h
        · rename_i hfrac
          simp only [Bool.and_eq_true, isDigit_cons_succ, isDigit_cons_zero] at hfrac
          simp only [reduceCtorEq, Bool.or_self, Bool.false_eq_true, if_false, decide_False]
            at h
          split at h
          · cases h
          · rename_i ns hns
            injection h with h
            injection h with ht hv
            rw [fracEnd_drop, takeWhile_length_eq_iff] at hv
            subst ht
            have hall : ∀ c ∈ v1 :: rest, isDec c = true := by
              intro c hc
              rcases List.mem_cons.1 hc with e | e
              · rw [e]; exact hfrac.2
              · exact hv c e
            exact ⟨⟨s1, s2, _, rfl, hs1, hs2, hlt,
              Or.inr ⟨v0, v1 :: rest, rfl, (commaOrPeriod_iff v0).1 hfrac.1,
                List.cons_ne_nil _ _, hall⟩⟩, rfl, rfl, rfl⟩
        · injection h with h
          injection h with ht hv
          cases hv
      · injection h with h
        injection h with ht hv
        subst ht hv
        exact ⟨⟨s1, s2, [], rfl, hs1, hs2, hlt, Or.inl rfl⟩, rfl, rfl, rfl⟩

/-- Two digits below 60 with an optional fraction are consumed by the seconds element. -/
theorem stdCase_second_of_form (s1 s2 : Char) (v : List Char) (t : Fields)
    (hs1 : isDec s1 = true) (hs2 : isDec s2 = true) (hlt : decimal [s1, s2] < 60)
    (hv : v = [] ∨ isFraction ['.', ','] v) :
    ∃ t1, stdCase .stdZeroSecond none (s1 :: s2 :: v) t = .ok (t1, []) ∧
      t1.year = t.year ∧ t1.month = t.month ∧ t1.day = t.day := by
  have hr : ¬ (((decimal [s1, s2] : Nat) : Int) < 0 ∨ (60 : Int) ≤ ((decimal [s1, s2] : Nat) : Int)) := by
    omega
  simp only [stdCase, getnum_fixed_cons, hs1, hs2, and_self, if_true, Bool.or_eq_true,
    decide_eq_true_eq, hr, if_false]
  rcases hv with rfl | ⟨sep, dds, rfl, hmem, hne, hall⟩
  · exact ⟨_, rfl, rfl, rfl, rfl⟩
  · obtain ⟨d, ds, rfl⟩ := List.exists_cons_of_ne_nil hne
    have hsep := (commaOrPeriod_iff sep).2 hmem
    have hd : isDec d = true := hall d (List.mem_cons_self _ _)
    have hds : ∀ c ∈ ds, isDec c = true := fun c hc => hall c (List.mem_cons_of_mem _ hc)
    obtain ⟨ns, hns⟩ := parseNanoseconds_ok sep d ds hsep hd hds
    have hend : fracEnd (sep :: d :: ds).length (sep :: d :: ds) 2 = (sep :: d :: ds).length := by
      have h := fracEnd_eq (sep :: d :: ds).length [sep, d] ds
        (by simp only [List.length_cons]; omega)
      have htw : ds.takeWhile isDec = ds := by
        rw [List.takeWhile_eq_self_iff]
        exact hds
      simp only [List.cons_append, List.nil_append, List.length_cons, List.length_nil, htw] at h
      simp only [List.length_cons]
      rw [h]
      omega
    simp only [hsep, isDigit_cons_succ, isDigit_cons_zero, hd, Bool.and_self, if_true,
      reduceCtorEq, Bool.or_self, Bool.false_eq_true, if_false, decide_False, hend, hns,
      List.drop_length]
    exact ⟨_, rfl, rfl, rfl, rfl⟩

/-- What the element loop accepts for the layout `15:04:05`. -/
theorem parseLoop_time_ok (l : List Char) (t : Fields)
    (h : parseLoop timeLayout.chunks timeLayout.rest l {} = .ok t) :
    timeForm [1, 2] ['.', ','] l ∧ t.year = 0 ∧ t.month = -1 ∧ t.day = -1 := by
  have hcolon : (':' == ' ') = false := by decide
  simp only [timeLayout, parseLoop, skip_nil, List.head?_cons, List.head?_nil, Option.map_some',
    Option.map_none'] at h
  split at h
  · cases h
  · rename_i x t1 v1 hhour
    simp only [stdCase] at hhour
    split at hhour
    · cases hhour
    · rename_i x1 hr v hget
      split at hhour
      · cases hhour
      · rename_i hrange
        simp only [Bool.or_eq_true, decide_eq_true_eq, not_or, not_le, not_lt] at hrange
        injection hhour with hhour
        injection hhour with ht1 hv1
        subst ht1 hv1
        split at h
        · cases h
        · rename_i x2 v2 hskip
          rw [skip_single_ok_iff _ hcolon] at hskip
          subst hskip
          split at h
          · cases h
          · rename_i x3 t3 v3 hmin
            simp only [stdCase] at hmin
            split at hmin
            · cases hmin
            · rename_i x4 mn v4 hget2
              obtain ⟨m1, m2, rfl, hm1, hm2, rfl⟩ := (getnum_fixed_ok_iff _ _ _).1 hget2
              split at hmin
              · cases hmin
              · rename_i hrange2
                simp only [Bool.or_eq_true, decide_eq_true_eq, not_or, not_le, not_lt] at hrange2
                injection hmin with hmin
                injection hmin with ht3 hv3
                subst ht3 hv3
                split at h
                · cases h
                · rename_i x5 v5 hskip2
                  rw [skip_single_ok_iff _ hcolon] at hskip2
                  subst hskip2
                  split at h
                  · cases h
                  · rename_i x6 t6 v6 hsec
                    split at h
                    · cases h
                    · rename_i hlen
                      injection h with h
                      have hnil : v6 = [] := by
                        simpa using hlen
                      subst hnil h
                      obtain ⟨⟨s1, s2, fr, rfl, hs1, hs2, hslt, hfr⟩, hy, hmo, hda⟩ :=
                        stdCase_second_ok _ _ _ hsec
                      refine ⟨?_, by rw [hy], by rw [hmo], by rw [hda]⟩
                      rcases (getnum_free_ok_iff _ _ _).1 hget with
                        ⟨a, b, rfl, ha, hb, rfl⟩ | ⟨a, rfl, ha, -, rfl⟩
                      · refine ⟨[a, b], m1, m2, s1, s2, fr, by simp, by simp, ?_, hm1, hm2, hs1,
                          hs2, by omega, by omega, hslt, hfr⟩
                        intro c hc
                        simp only [List.mem_cons, List.mem_singleton, List.not_mem_nil,
                          or_false] at hc
                        rcases hc with rfl | rfl <;> assumption
                      · refine ⟨[a], m1, m2, s1, s2, fr, by simp, by simp, ?_, hm1, hm2, hs1,
                          hs2, by omega, by omega, hslt, hfr⟩
                        intro c hc
                        simp only [List.mem_singleton] at hc
                        rw [hc]; exact ha

theorem stdCase_hour (next : Option Std) (value : List Char) (t : Fields) :
    stdCase .stdHour next value t =
      match getnum value false with
      | .error e => .error e
      | .ok (h, v) =>
        if h < 0 || 24 ≤ h then .error (.outOfRange "hour")
        else .ok ({ t with hour := h }, v) := by
  simp only [stdCase]

theorem stdCase_minute (next : Option Std) (value : List Char) (t : Fields) :
    stdCase .stdZeroMinute next value t =
      match getnum value true with
      | .error e => .error e
      | .ok (m, v) =>
        if m < 0 || 60 ≤ m then .error (.outOfRange "minute")
        else .ok ({ t with min := m }, v) := by
  simp only [stdCase]

/-- Every text of the form is accepted by the element loop for the layout `15:04:05`. -/
theorem parseLoop_time_of_form (l : List Char) (h : timeForm [1, 2] ['.', ','] l) :
    ∃ t, parseLoop timeLayout.chunks timeLayout.rest l {} = .ok t ∧
      t.year = 0 ∧ t.month = -1 ∧ t.day = -1 := by
  have hcolon : (':' == ' ') = false := by decide
  have hnd : isDec ':' = false := by decide
  obtain ⟨hh, m1, m2, s1, s2, fr, rfl, hlen, hhd, hm1, hm2, hs1, hs2, hhlt, hmlt, hslt, hfr⟩ := h
  have hmr : ¬ (((decimal [m1, m2] : Nat) : Int) < 0 ∨ (60 : Int) ≤ ((decimal [m1, m2] : Nat) : Int)) := by
    omega
  have hhr : ¬ (((decimal hh : Nat) : Int) < 0 ∨ (24 : Int) ≤ ((decimal hh : Nat) : Int)) := by
    omega
  have hget : getnum (hh ++ [':', m1, m2, ':', s1, s2] ++ fr) false
      = .ok (((decimal hh : Nat) : Int), [':', m1, m2, ':', s1, s2] ++ fr) := by
    simp only [List.mem_cons, List.mem_singleton, List.not_mem_nil, or_false] at hlen
    rcases hlen with h1 | h2
    · obtain ⟨a, rfl⟩ := List.length_eq_one.1 h1
      have ha := hhd a (by simp)
      simp [getnum_free_cons, ha, hnd]
    · obtain ⟨a, b, rfl⟩ := List.length_eq_two.1 h2
      have ha := hhd a (by simp)
      have hb := hhd b (by simp)
      simp [getnum_free_cons, ha, hb]
  obtain ⟨t1, hsec, hy, hmo, hda⟩ := stdCase_second_of_form s1 s2 fr
    { hour := ((decimal hh : Nat) : Int), min := ((decimal [m1, m2] : Nat) : Int) } hs1 hs2 hslt hfr
  refine ⟨t1, ?_, by rw [hy], by rw [hmo], by rw [hda]⟩
  simp only [timeLayout, parseLoop, skip_nil, List.head?_cons, List.head?_nil, Option.map_some',
    Option.map_none', stdCase_hour, stdCase_minute, hget, Bool.or_eq_true, decide_eq_true_eq,
    hhr, if_false,
    skip_single _ hcolon, List.cons_append, List.nil_append, if_true, getnum_fixed_cons, hm1,
    hm2, and_self, hmr]
  rw [hsec]
  simp

/-- For a month from 1 to 12, `daysIn` is the length of the month in the civil calendar. -/
theorem daysIn_eq (y m : Nat) (h1 : 1 ≤ m) (h12 : m ≤ 12) :
    daysIn (m : Int) (y : Int) = (daysInMonth y m : Int) := by
  have e4 : (y : Int).tmod 4 = (y : Int) % 4 := Int.tmod_eq_emod (by omega) (by omega)
  have e100 : (y : Int).tmod 100 = (y : Int) % 100 := Int.tmod_eq_emod (by omega) (by omega)
  have e400 : (y : Int).tmod 400 = (y : Int) % 400 := Int.tmod_eq_emod (by omega) (by omega)
  have hleap : isLeap (y : Int) = leapYear y := by
    simp only [isLeap, leapYear, e4, e100, e400]
    rw [Bool.eq_iff_iff]
    simp only [Bool.and_eq_true, Bool.or_eq_true, beq_iff_eq, bne_iff_ne, ne_eq]
    omega
  interval_cases m <;> simp [daysIn, daysBefore, daysInMonth, hleap]

/-- What `time.Parse("2006-01-02", l)` accepts. -/
theorem parse_date_ok_iff (l : List Char) :
    (∃ t, Parse dateLayout l = .ok t) ↔
      ∃ y1 y2 y3 y4 m1 m2 d1 d2, l = [y1, y2, y3, y4, '-', m1, m2, '-', d1, d2] ∧
        isDec y1 = true ∧ isDec y2 = true ∧ isDec y3 = true ∧ isDec y4 = true ∧
        isDec m1 = true ∧ isDec m2 = true ∧ isDec d1 = true ∧ isDec d2 = true ∧
        1 ≤ decimal [m1, m2] ∧ decimal [m1, m2] ≤ 12 ∧
        1 ≤ decimal [d1, d2] ∧
        decimal [d1, d2] ≤ daysInMonth (decimal [y1, y2, y3, y4]) (decimal [m1, m2]) := by
  constructor
  · rintro ⟨t, h⟩
    unfold Parse at h
    split at h
    · cases h
    · rename_i x t0 hloop
      obtain ⟨y1, y2, y3, y4, m1, m2, d1, d2, rfl, hy1, hy2, hy3, hy4, hm1, hm2, hd1, hd2, hlo,
        hhi, rfl⟩ := (parseLoop_date_ok_iff _ _).1 hloop
      have hdays := daysIn_eq (decimal [y1, y2, y3, y4]) (decimal [m1, m2]) hlo hhi
      have hm : ¬ ((decimal [m1, m2] : Int) < 0) := by omega
      have hd : ¬ ((decimal [d1, d2] : Int) < 0) := by omega
      simp only [hm, hd, if_false, hdays] at h
      split at h
      · cases h
      · rename_i hrange
        simp only [Bool.or_eq_true, decide_eq_true_eq, not_or, not_lt] at hrange
        refine ⟨y1, y2, y3, y4, m1, m2, d1, d2, rfl, hy1, hy2, hy3, hy4, hm1, hm2, hd1, hd2, hlo,
          hhi, ?_, ?_⟩
        · omega
        · omega
  · rintro ⟨y1, y2, y3, y4, m1, m2, d1, d2, rfl, hy1, hy2, hy3, hy4, hm1, hm2, hd1, hd2, hlo,
      hhi, hdlo, hdhi⟩
    have hloop := (parseLoop_date_ok_iff [y1, y2, y3, y4, '-', m1, m2, '-', d1, d2] _).2
      ⟨y1, y2, y3, y4, m1, m2, d1, d2, rfl, hy1, hy2, hy3, hy4, hm1, hm2, hd1, hd2, hlo, hhi, rfl⟩
    have hdays := daysIn_eq (decimal [y1, y2, y3, y4]) (decimal [m1, m2]) hlo hhi
    have hm : ¬ ((decimal [m1, m2] : Int) < 0) := by omega
    have hd : ¬ ((decimal [d1, d2] : Int) < 0) := by omega
    have hrange : ¬ (((decimal [d1, d2] : Int) < 1) ∨
        ((decimal [d1, d2] : Int) > (daysInMonth (decimal [y1, y2, y3, y4]) (decimal [m1, m2]) : Int))) := by
      omega
    unfold Parse
    rw [hloop]
    simp only [hm, hd, if_false, hdays, Bool.or_eq_true, decide_eq_true_eq, hrange]
    exact ⟨_, rfl⟩

end GoTime

/-! ## Lemmas on regular expressions -/

namespace GoRegexp

theorem nullable_iff (r : Re) : r.nullable = true ↔ Matches r [] := by
  constructor
  · intro h
    induction r with
    | none => cases h
    | eps => exact .eps
    | cls p => cases h
    | cat r s ihr ihs =>
      simp only [Re.nullable, Bool.and_eq_true] at h
      exact .cat r s [] [] (ihr h.1) (ihs h.2)
    | alt r s ihr ihs =>
      simp only [Re.nullable, Bool.or_eq_true] at h
      rcases h with h | h
      · exact .altL r s [] (ihr h)
      · exact .altR r s [] (ihs h)
    | star r _ => exact .starNil r
  · intro h
    generalize hx : ([] : List Char) = x at h
    induction h with
    | eps => rfl
    | cls p c hp => cases hx
    | cat r s u v _ _ ihr ihs =>
      have huv := List.append_eq_nil.1 hx.symm
      simp only [Re.nullable, Bool.and_eq_true]
      exact ⟨ihr huv.1.symm, ihs huv.2.symm⟩
    | altL r s u _ ih =>
      simp only [Re.nullable, Bool.or_eq_true]
      exact Or.inl (ih hx)
    | altR r s u _ ih =>
      simp only [Re.nullable, Bool.or_eq_true]
      exact Or.inr (ih hx)
    | starNil r => rfl
    | starCons r u v _ _ _ _ => rfl

theorem matches_of_deriv (r : Re) :
    ∀ (c : Char) (l : List Char), Matches (r.deriv c) l → Matches r (c :: l) := by
  induction r with
  | none => intro c l h; cases h
  | eps => intro c l h; cases h
  | cls p =>
    intro c l h
    simp only [Re.deriv] at h
    by_cases hp : p c = true
    · rw [if_pos hp] at h
      cases h
      exact .cls p c hp
    · rw [if_neg hp] at h
      cases h
  | cat r s ihr ihs =>
    intro c l h
    simp only [Re.deriv] at h
    by_cases hn : r.nullable = true
    · rw [if_pos hn] at h
      cases h with
      | altL _ _ _ h1 =>
        cases h1 with
        | cat _ _ u v hu hv => exact .cat r s (c :: u) v (ihr c u hu) hv
      | altR _ _ _ h2 =>
        exact .cat r s [] (c :: l) ((nullable_iff r).1 hn) (ihs c l h2)
    · rw [if_neg hn] at h
      cases h with
      | cat _ _ u v hu hv => exact .cat r s (c :: u) v (ihr c u hu) hv
  | alt r s ihr ihs =>
    intro c l h
    simp only [Re.deriv] at h
    cases h with
    | altL _ _ _ h1 => exact .altL r s _ (ihr c l h1)
    | altR _ _ _ h2 => exact .altR r s _ (ihs c l h2)
  | star r ih =>
    intro c l h
    simp only [Re.deriv] at h
    cases h with
    | cat _ _ u v hu hv => exact .starCons r (c :: u) v (ih c u hu) hv

theorem deriv_of_matches (r : Re) (x : List Char) (h : Matches r x) :
    ∀ (c : Char) (l : List Char), x = c :: l → Matches (r.deriv c) l := by
  induction h with
  | eps => intro c l hx; cases hx
  | cls p d hp =>
    intro c l hx
    injection hx with h1 h2
    subst h1 h2
    simp only [Re.deriv, hp, if_true]
    exact .eps
  | cat r s u v hu hv ihu ihv =>
    intro c l hx
    cases u with
    | nil =>
      have hn := (nullable_iff r).2 hu
      simp only [Re.deriv, hn, if_true]
      exact .altR _ _ _ (ihv c l hx)
    | cons a u =>
      injection hx with h1 h2
      subst h1 h2
      have hcat : Matches (.cat (r.deriv a) s) (u ++ v) := .cat _ _ u v (ihu a u rfl) hv
      simp only [Re.deriv]
      by_cases hn : r.nullable = true
      · rw [if_pos hn]
        exact .altL _ _ _ hcat
      · rw [if_neg hn]
        exact hcat
  | altL r s u _ ih =>
    intro c l hx
    simp only [Re.deriv]
    exact .altL _ _ _ (ih c l hx)
  | altR r s u _ ih =>
    intro c l hx
    simp only [Re.deriv]
    exact .altR _ _ _ (ih c l hx)
  | starNil r => intro c l hx; cases hx
  | starCons r u v hu hv ihu ihv =>
    intro c l hx
    cases u with
    | nil => exact ihv c l hx
    | cons a u =>
      injection hx with h1 h2
      subst h1 h2
      simp only [Re.deriv]
      exact .cat _ _ u v (ihu a u rfl) hv

/-- Matching by derivatives decides membership in the language of the expression. -/
theorem fullMatch_iff (l : List Char) : ∀ r : Re, r.fullMatch l = true ↔ Matches r l := by
  induction l with
  | nil => intro r; exact nullable_iff r
  | cons c l ih =>
    intro r
    simp only [Re.fullMatch]
    rw [ih]
    exact ⟨matches_of_deriv r c l, fun h => deriv_of_matches r _ h c l rfl⟩

theorem matches_cat_iff (r s : Re) (l : List Char) :
    Matches (.cat r s) l ↔ ∃ u v, l = u ++ v ∧ Matches r u ∧ Matches s v := by
  constructor
  · intro h
    cases h with
    | cat _ _ u v hu hv => exact ⟨u, v, rfl, hu, hv⟩
  · rintro ⟨u, v, rfl, hu, hv⟩
    exact .cat r s u v hu hv

theorem matches_cls_iff (p : Char → Bool) (l : List Char) :
    Matches (.cls p) l ↔ ∃ c, l = [c] ∧ p c = true := by
  constructor
  · intro h
    cases h with
    | cls _ c hp => exact ⟨c, rfl, hp⟩
  · rintro ⟨c, rfl, hp⟩
    exact .cls p c hp

theorem matches_star_cls_iff (p : Char → Bool) (l : List Char) :
    Matches (.star (.cls p)) l ↔ ∀ c ∈ l, p c = true := by
  constructor
  · intro h
    generalize hr : Re.star (.cls p) = r at h
    induction h with
    | eps => cases hr
    | cls _ _ _ => cases hr
    | cat _ _ _ _ _ _ _ _ => cases hr
    | altL _ _ _ _ _ => cases hr
    | altR _ _ _ _ _ => cases hr
    | starNil _ => intro c hc; cases hc
    | starCons r1 u v hu _ _ ihv =>
      injection hr with hr1
      subst hr1
      obtain ⟨d, rfl, hd⟩ := (matches_cls_iff p u).1 hu
      intro c hc
      rcases List.mem_append.1 hc with e | e
      · simp only [List.mem_singleton] at e
        rw [e]; exact hd
      · exact ihv rfl c e
  · intro h
    induction l with
    | nil => exact .starNil _
    | cons a l ih =>
      have ha := h a (List.mem_cons_self _ _)
      exact .starCons _ [a] l (.cls p a ha) (ih (fun c hc => h c (List.mem_cons_of_mem _ hc)))

theorem matches_plus_cls_iff (p : Char → Bool) (l : List Char) :
    Matches (Re.plus (.cls p)) l ↔ l ≠ [] ∧ ∀ c ∈ l, p c = true := by
  unfold Re.plus
  rw [matches_cat_iff]
  constructor
  · rintro ⟨u, v, rfl, hu, hv⟩
    obtain ⟨d, rfl, hd⟩ := (matches_cls_iff p u).1 hu
    rw [matches_star_cls_iff] at hv
    refine ⟨by simp, ?_⟩
    intro c hc
    rcases List.mem_append.1 hc with e | e
    · simp only [List.mem_singleton] at e
      rw [e]; exact hd
    · exact hv c e
  · rintro ⟨hne, h⟩
    obtain ⟨a, t, rfl⟩ := List.exists_cons_of_ne_nil hne
    exact ⟨[a], t, rfl, .cls p a (h a (List.mem_cons_self _ _)),
      (matches_star_cls_iff p t).2 (fun c hc => h c (List.mem_cons_of_mem _ hc))⟩

theorem matches_atLeast_two_cls_iff (p : Char → Bool) (l : List Char) :
    Matches (Re.atLeast 2 (.cls p)) l ↔ 2 ≤ l.length ∧ ∀ c ∈ l, p c = true := by
  simp only [Re.atLeast, matches_cat_iff, matches_cls_iff, matches_star_cls_iff]
  constructor
  · rintro ⟨u, v, rfl, ⟨a, rfl, ha⟩, u2, v2, rfl, ⟨b, rfl, hb⟩, hv⟩
    refine ⟨by simp, ?_⟩
    intro c hc
    simp only [List.cons_append, List.nil_append, List.mem_cons] at hc
    rcases hc with rfl | rfl | e
    · exact ha
    · exact hb
    · exact hv c e
  · rintro ⟨hlen, h⟩
    rcases l with _ | ⟨a, _ | ⟨b, t⟩⟩
    · simp at hlen
    · simp at hlen
    · exact ⟨[a], b :: t, rfl, ⟨a, rfl, h a (by simp)⟩, [b], t, rfl, ⟨b, rfl, h b (by simp)⟩,
        fun c hc => h c (by simp [hc])⟩

end GoRegexp

/-! ## Lemmas on the e-mail pattern -/

theorem char_eq_iff_toNat (c d : Char) : c = d ↔ c.toNat = d.toNat := by
  constructor
  · intro h; rw [h]
  · intro h
    apply Char.ext
    apply UInt32.ext
    exact h

theorem localClass_iff (c : Char) :
    localClass c = true ↔
      (isAsciiLetter c = true ∨ isDec c = true ∨ c ∈ ['.', '_', '%', '+', '-']) := by
  simp only [localClass, GoRegexp.inRanges, isAsciiLetter, isDec, List.mem_cons,
    List.mem_singleton, List.not_mem_nil, or_false, char_eq_iff_toNat c, List.any_cons,
    List.any_nil, Bool.or_false, Bool.or_eq_true, Bool.and_eq_true, decide_eq_true_eq,
    Char.reduceToNat]
  omega

theorem domainClass_iff (c : Char) :
    domainClass c = true ↔ (isAsciiLetter c = true ∨ isDec c = true ∨ c ∈ ['.', '-']) := by
  simp only [domainClass, GoRegexp.inRanges, isAsciiLetter, isDec, List.mem_cons,
    List.mem_singleton, List.not_mem_nil, or_false, char_eq_iff_toNat c, List.any_cons,
    List.any_nil, Bool.or_false, Bool.or_eq_true, Bool.and_eq_true, decide_eq_true_eq,
    Char.reduceToNat]
  omega

theorem letterClass_iff (c : Char) : letterClass c = true ↔ isAsciiLetter c = true := by
  simp only [letterClass, GoRegexp.inRanges, isAsciiLetter, List.any_cons,
    List.any_nil, Bool.or_false, Bool.or_eq_true, Bool.and_eq_true, decide_eq_true_eq,
    Char.reduceToNat]

/-- The language of the e-mail pattern. -/
theorem matches_emailRegex_iff (l : List Char) : GoRegexp.Matches emailRegex l ↔ emailForm l := by
  unfold emailRegex emailForm
  simp only [GoRegexp.matches_cat_iff, GoRegexp.matches_plus_cls_iff, GoRegexp.matches_cls_iff,
    GoRegexp.matches_atLeast_two_cls_iff, localClass_iff, domainClass_iff, letterClass_iff,
    beq_iff_eq]
  constructor
  · rintro ⟨loc, r1, rfl, ⟨hlne, hl⟩, a, r2, rfl, ⟨c1, rfl, rfl⟩, dom, r3, rfl, ⟨hdne, hd⟩, d,
      tld, rfl, ⟨c2, rfl, rfl⟩, htl, ht⟩
    exact ⟨loc, dom, tld, by simp, hlne, hl, hdne, hd, htl, ht⟩
  · rintro ⟨loc, dom, tld, rfl, hlne, hl, hdne, hd, htl, ht⟩
    exact ⟨loc, ['@'] ++ (dom ++ (['.'] ++ tld)), by simp, ⟨hlne, hl⟩, ['@'],
      dom ++ (['.'] ++ tld), rfl, ⟨'@', rfl, rfl⟩, dom, ['.'] ++ tld, rfl, ⟨hdne, hd⟩, ['.'], tld,
      rfl, ⟨'.', rfl, rfl⟩, htl, ht⟩

theorem validateEmail_eq_true_iff (s : String) (hs : s ≠ "") :
    validateEmail s = true ↔ emailForm s.toList := by
  unfold validateEmail emailRegexMatchString
  have h : (s == "") = false := by simpa using hs
  rw [h]
  simp only [Bool.false_eq_true, if_false]
  rw [GoRegexp.fullMatch_iff, matches_emailRegex_iff]

theorem not_at_of_class (c : Char)
    (h : isAsciiLetter c = true ∨ isDec c = true ∨ c ∈ ['.', '_', '%', '+', '-']) : c ≠ '@' := by
  intro e
  subst e
  revert h
  decide

/-- In a text of the form, the part before an `@` is the local part and is not empty, and
the part after it holds a `.`. -/
theorem emailForm_split (l r : List Char) (h : emailForm (l ++ '@' :: r)) :
    l ≠ [] ∧ '.' ∈ r := by
  obtain ⟨loc, dom, tld, hl, hlne, hloc, hdne, hdom, htl, htld⟩ := h
  have hnl : '@' ∉ loc := fun hm => not_at_of_class _ (hloc _ hm) rfl
  have hnr : '@' ∉ dom ++ '.' :: tld := by
    intro hm
    rcases List.mem_append.1 hm with e | e
    · have := hdom _ e
      exact not_at_of_class _ (by
        rcases this with h1 | h1 | h1
        · exact Or.inl h1
        · exact Or.inr (Or.inl h1)
        · simp only [List.mem_cons, List.mem_singleton, List.not_mem_nil, or_false] at h1
          rcases h1 with h1 | h1 <;> exact absurd h1 (by decide)) rfl
    · rcases List.mem_cons.1 e with e1 | e1
      · exact absurd e1 (by decide)
      · exact not_at_of_class _ (Or.inl (htld _ e1)) rfl
  have hl2 : l ++ '@' :: r = loc ++ '@' :: (dom ++ '.' :: tld) := by
    rw [hl]; simp
  rcases List.append_eq_append_iff.1 hl2 with ⟨a, e1, e2⟩ | ⟨a, e1, e2⟩
  · cases a with
    | nil =>
      simp only [List.nil_append, List.cons.injEq, true_and] at e2
      simp only [List.append_nil] at e1
      subst e1 e2
      exact ⟨hlne, by simp⟩
    | cons x a =>
      simp only [List.cons_append, List.cons.injEq] at e2
      exact absurd (by rw [e1, ← e2.1]; simp) hnl
  · cases a with
    | nil =>
      simp only [List.nil_append, List.cons.injEq, true_and] at e2
      simp only [List.append_nil] at e1
      subst e1 e2
      exact ⟨hlne, by simp⟩
    | cons x a =>
      simp only [List.cons_append, List.cons.injEq] at e2
      exact absurd (by rw [e2.2]; simp) hnr

/-! ## The validators -/

/-- What `time.Parse("15:04:05", l)` accepts. -/
theorem GoTime.parse_time_ok_iff (l : List Char) :
    (∃ t, GoTime.Parse GoTime.timeLayout l = .ok t) ↔ timeForm [1, 2] ['.', ','] l := by
  constructor
  · rintro ⟨t, h⟩
    unfold GoTime.Parse at h
    split at h
    · cases h
    · rename_i x t0 hloop
      exact (GoTime.parseLoop_time_ok l t0 hloop).1
  · intro h
    obtain ⟨t, hloop, hy, hmo, hda⟩ := GoTime.parseLoop_time_of_form l h
    unfold GoTime.Parse
    rw [hloop]
    simp only [hy, hmo, hda]
    exact ⟨_, rfl⟩

theorem validateTimeFormat_eq_true_iff (s : String) :
    validateTimeFormat s = true ↔ timeForm [1, 2] ['.', ','] s.toList := by
  rw [← GoTime.parse_time_ok_iff]
  unfold validateTimeFormat
  cases h : GoTime.Parse GoTime.timeLayout s.toList with
  | error e => simp
  | ok t => simp

/-- The texts of the form that start with two characters, a colon, and so on: the hour
has two digits. -/
theorem timeForm_eight (seps : List Char) (h1 h2 m1 m2 s1 s2 : Char) (fr : List Char) :
    timeForm [1, 2] seps ([h1, h2, ':', m1, m2, ':', s1, s2] ++ fr) ↔
      (isDec h1 = true ∧ isDec h2 = true ∧ isDec m1 = true ∧ isDec m2 = true ∧
        isDec s1 = true ∧ isDec s2 = true ∧ decimal [h1, h2] < 24 ∧ decimal [m1, m2] < 60 ∧
        decimal [s1, s2] < 60 ∧ (fr = [] ∨ isFraction seps fr)) := by
  have hnd : isDec ':' = false := by decide
  constructor
  · rintro ⟨hh, n1, n2, r1, r2, fr1, hl, hlen, hhd, hn1, hn2, hr1, hr2, hhlt, hmlt, hslt, hfr⟩
    simp only [List.mem_cons, List.mem_singleton, List.not_mem_nil, or_false] at hlen
    rcases hlen with e1 | e2
    · obtain ⟨a, rfl⟩ := List.length_eq_one.1 e1
      simp only [List.cons_append, List.nil_append, List.cons.injEq] at hl
      obtain ⟨-, -, hc, -⟩ := hl
      rw [← hc, hnd] at hn1
      cases hn1
    · obtain ⟨a, b, rfl⟩ := List.length_eq_two.1 e2
      simp only [List.cons_append, List.nil_append, List.cons.injEq, true_and] at hl
      obtain ⟨rfl, rfl, rfl, rfl, rfl, rfl, rfl⟩ := hl
      exact ⟨hhd _ (by simp), hhd _ (by simp), hn1, hn2, hr1, hr2, hhlt, hmlt, hslt, hfr⟩
  · rintro ⟨g1, g2, g3, g4, g5, g6, g7, g8, g9, g10⟩
    refine ⟨[h1, h2], m1, m2, s1, s2, fr, by simp, by simp, ?_, g3, g4, g5, g6, g7, g8, g9, g10⟩
    intro c hc
    simp only [List.mem_cons, List.mem_singleton, List.not_mem_nil, or_false] at hc
    rcases hc with rfl | rfl <;> assumption

theorem validateDateFormat_eq_true_iff (s : String) :
    validateDateFormat s = true ↔ ∃ t, GoTime.Parse GoTime.dateLayout s.toList = .ok t := by
  unfold validateDateFormat
  cases h : GoTime.Parse GoTime.dateLayout s.toList with
  | error e => simp
  | ok t => simp

/-- C3: `validateDateFormat` accepts exactly the strings `YYYY-MM-DD` of four digits, `-`,
two digits, `-`, two digits, with the month from 01 to 12 and the day from 01 to the
length of that month in that year under the Gregorian leap-year rule; so `2024-03-32`,
`2024-02-30`, `24-03-15`, `2024/03/15`, `2024-3-15`, `invalid` and the empty string are
rejected. -/
theorem validateDateFormat_iff_calendar_date :
    (∀ s : String, validateDateFormat s = true ↔
      ∃ y1 y2 y3 y4 m1 m2 d1 d2 : Char,
        s.toList = [y1, y2, y3, y4, '-', m1, m2, '-', d1, d2] ∧
        isDec y1 = true ∧ isDec y2 = true ∧ isDec y3 = true ∧ isDec y4 = true ∧
        isDec m1 = true ∧ isDec m2 = true ∧ isDec d1 = true ∧ isDec d2 = true ∧
        1 ≤ decimal [m1, m2] ∧ decimal [m1, m2] ≤ 12 ∧
        1 ≤ decimal [d1, d2] ∧
        decimal [d1, d2] ≤ daysInMonth (decimal [y1, y2, y3, y4]) (decimal [m1, m2])) ∧
    validateDateFormat "2024-03-32" = false ∧
    validateDateFormat "2024-02-30" = false ∧
    validateDateFormat "24-03-15" = false ∧
    validateDateFormat "2024/03/15" = false ∧
    validateDateFormat "2024-3-15" = false ∧
    validateDateFormat "invalid" = false ∧
    validateDateFormat "" = false := by
  refine ⟨fun s => ?_, by decide, by decide, by decide, by decide, by decide, by decide,
    by decide⟩
  rw [validateDateFormat_eq_true_iff]
  exact GoTime.parse_date_ok_iff s.toList

/-- C4: for two-digit decimal strings `hh`, `mm`, `ss`, `validateTimeFormat` accepts
`hh:mm:ss` exactly when `hh < 24`, `mm < 60` and `ss < 60`; `00:00:00` and `23:59:59` are
accepted, `24:00:00`, `14:60:00` and `14:30:60` are rejected. -/
theorem validateTimeFormat_two_digit_fields (h1 h2 m1 m2 s1 s2 : Char)
    (hh1 : isDec h1 = true) (hh2 : isDec h2 = true) (hm1 : isDec m1 = true)
    (hm2 : isDec m2 = true) (hs1 : isDec s1 = true) (hs2 : isDec s2 = true) :
    (validateTimeFormat (String.mk ([h1, h2] ++ [':'] ++ [m1, m2] ++ [':'] ++ [s1, s2])) = true ↔
      decimal [h1, h2] < 24 ∧ decimal [m1, m2] < 60 ∧ decimal [s1, s2] < 60) ∧
    validateTimeFormat "00:00:00" = true ∧
    validateTimeFormat "23:59:59" = true ∧
    validateTimeFormat "24:00:00" = false ∧
    validateTimeFormat "14:60:00" = false ∧
    validateTimeFormat "14:30:60" = false := by
  refine ⟨?_, by decide, by decide, by decide, by decide, by decide⟩
  rw [validateTimeFormat_eq_true_iff]
  have h := timeForm_eight ['.', ','] h1 h2 m1 m2 s1 s2 []
  simp only [List.append_nil] at h
  show timeForm [1, 2] ['.', ','] [h1, h2, ':', m1, m2, ':', s1, s2] ↔ _
  rw [h]
  simp [hh1, hh2, hm1, hm2, hs1, hs2]

/-- Witness of C4 at `23:59:59`. -/
theorem validateTimeFormat_two_digit_fields_witness :
    (validateTimeFormat (String.mk (['2', '3'] ++ [':'] ++ ['5', '9'] ++ [':'] ++ ['5', '9']))
        = true ↔
      decimal ['2', '3'] < 24 ∧ decimal ['5', '9'] < 60 ∧ decimal ['5', '9'] < 60) ∧
    validateTimeFormat "00:00:00" = true ∧
    validateTimeFormat "23:59:59" = true ∧
    validateTimeFormat "24:00:00" = false ∧
    validateTimeFormat "14:60:00" = false ∧
    validateTimeFormat "14:30:60" = false :=
  validateTimeFormat_two_digit_fields '2' '3' '5' '9' '5' '9' (by decide) (by decide)
    (by decide) (by decide) (by decide) (by decide)

/-- C5 as stated fails: `1:30:00`, with a one-digit hour, and `14:30:00,5`, with a comma
before the fraction, are accepted, and neither has the form `HH:MM:SS` with a two-digit
hour and an optional suffix of `.` and digits. -/
theorem validateTimeFormat_accepts_other_forms :
    validateTimeFormat "1:30:00" = true ∧ ¬ timeForm [2] ['.'] "1:30:00".toList ∧
    validateTimeFormat "14:30:00,5" = true ∧ ¬ timeForm [2] ['.'] "14:30:00,5".toList := by
  have hnd : isDec ':' = false := by decide
  refine ⟨by decide, ?_, by decide, ?_⟩
  · rintro ⟨hh, n1, n2, r1, r2, fr1, hl, hlen, hhd, -⟩
    simp only [List.mem_singleton] at hlen
    obtain ⟨a, b, rfl⟩ := List.length_eq_two.1 hlen
    have hb := hhd b (by simp)
    have hl2 : ['1', ':', '3', '0', ':', '0', '0'] =
        [a, b] ++ [':', n1, n2, ':', r1, r2] ++ fr1 := hl
    simp only [List.cons_append, List.nil_append, List.cons.injEq] at hl2
    rw [← hl2.2.1, hnd] at hb
    cases hb
  · rintro ⟨hh, n1, n2, r1, r2, fr1, hl, hlen, hhd, -, -, -, -, -, -, -, hfr⟩
    simp only [List.mem_singleton] at hlen
    obtain ⟨a, b, rfl⟩ := List.length_eq_two.1 hlen
    have hl2 : ['1', '4', ':', '3', '0', ':', '0', '0', ',', '5'] =
        [a, b] ++ [':', n1, n2, ':', r1, r2] ++ fr1 := hl
    simp only [List.cons_append, List.nil_append, List.cons.injEq, true_and] at hl2
    obtain ⟨-, -, -, -, -, -, hfr1⟩ := hl2
    subst hfr1
    rcases hfr with h | ⟨sep, ds, e, hmem, -⟩
    · cases h
    · simp only [List.cons.injEq] at e
      simp only [List.mem_singleton] at hmem
      rw [hmem] at e
      exact absurd e.1 (by decide)

/-- C5, amended: `validateTimeFormat` accepts exactly the texts `H:MM:SS` and `HH:MM:SS`,
with an hour of one or two digits below 24, a two-digit minute and second below 60, and
optionally a `.` or a `,` followed by one or more decimal digits; `14:30`, `invalid` and
the empty string are rejected. -/
theorem validateTimeFormat_iff_time_form :
    (∀ s : String, validateTimeFormat s = true ↔ timeForm [1, 2] ['.', ','] s.toList) ∧
    validateTimeFormat "14:30" = false ∧
    validateTimeFormat "invalid" = false ∧
    validateTimeFormat "" = false :=
  ⟨validateTimeFormat_eq_true_iff, by decide, by decide, by decide⟩

/-- C7: when `validateTimeFormat` accepts a text `HH:MM:SS`, it also accepts that text
followed by `.` and any non-empty string of decimal digits, of any length. -/
theorem validateTimeFormat_fraction_tolerated (h1 h2 m1 m2 s1 s2 : Char) (f : List Char)
    (hacc : validateTimeFormat (String.mk [h1, h2, ':', m1, m2, ':', s1, s2]) = true)
    (hne : f ≠ []) (hf : ∀ c ∈ f, isDec c = true) :
    validateTimeFormat (String.mk ([h1, h2, ':', m1, m2, ':', s1, s2] ++ ['.'] ++ f)) = true := by
  rw [validateTimeFormat_eq_true_iff] at hacc ⊢
  have h0 := timeForm_eight ['.', ','] h1 h2 m1 m2 s1 s2 []
  simp only [List.append_nil] at h0
  obtain ⟨g1, g2, g3, g4, g5, g6, g7, g8, g9, -⟩ := h0.1 hacc
  have h := timeForm_eight ['.', ','] h1 h2 m1 m2 s1 s2 ('.' :: f)
  show timeForm [1, 2] ['.', ','] ([h1, h2, ':', m1, m2, ':', s1, s2] ++ ['.'] ++ f)
  rw [List.append_assoc]
  exact h.2 ⟨g1, g2, g3, g4, g5, g6, g7, g8, g9, Or.inr ⟨'.', f, rfl, by simp, hne, hf⟩⟩

/-- Witness of C7: `14:30:00` is accepted, and so is `14:30:00.000`. -/
theorem validateTimeFormat_fraction_tolerated_witness :
    validateTimeFormat (String.mk ['1', '4', ':', '3', '0', ':', '0', '0']) = true ∧
    ['0', '0', '0'] ≠ [] ∧ (∀ c ∈ ['0', '0', '0'], isDec c = true) ∧
    validateTimeFormat
      (String.mk (['1', '4', ':', '3', '0', ':', '0', '0'] ++ ['.'] ++ ['0', '0', '0'])) = true :=
  ⟨by decide, by decide, by decide,
    validateTimeFormat_fraction_tolerated '1' '4' '3' '0' '0' '0' ['0', '0', '0'] (by decide)
      (by decide) (by decide)⟩

/-- C6: `validateEmail("")` is true, and a non-empty `s` is accepted exactly when it is
`local@domain.tld` with a non-empty local part over ASCII letters, digits and `._%+-`, a
non-empty domain over ASCII letters, digits, `.` and `-`, and two or more ASCII letters
after the last `.`. So a non-empty string with no `@`, with an empty local part, with
nothing after the `@` or with no `.` after the `@` is rejected (`invalid-email`,
`@domain.com`, `user@`, `user@domain`), and `test@example.com` and
`user.name@domain.co.uk` are accepted. -/
theorem validateEmail_iff_email_form (s : String) (hs : s ≠ "") :
    validateEmail "" = true ∧
    (validateEmail s = true ↔ emailForm s.toList) ∧
    ('@' ∉ s.toList → validateEmail s = false) ∧
    (∀ r : List Char, validateEmail (String.mk ('@' :: r)) = false) ∧
    (∀ l : List Char, validateEmail (String.mk (l ++ ['@'])) = false) ∧
    (∀ l r : List Char, '.' ∉ r → validateEmail (String.mk (l ++ '@' :: r)) = false) ∧
    validateEmail "invalid-email" = false ∧
    validateEmail "@domain.com" = false ∧
    validateEmail "user@" = false ∧
    validateEmail "user@domain" = false ∧
    validateEmail "test@example.com" = true ∧
    validateEmail "user.name@domain.co.uk" = true := by
  have hsplit : ∀ l r : List Char, validateEmail (String.mk (l ++ '@' :: r)) = true →
      l ≠ [] ∧ '.' ∈ r := by
    intro l r h
    have hne : String.mk (l ++ '@' :: r) ≠ "" := by
      intro e
      have := congrArg String.toList e
      simp at this
    rw [validateEmail_eq_true_iff _ hne] at h
    exact emailForm_split l r h
  refine ⟨by decide, validateEmail_eq_true_iff s hs, ?_, ?_, ?_, ?_, by decide, by decide,
    by decide, by decide, by decide, by decide⟩
  · intro hno
    rw [← Bool.not_eq_true]
    intro h
    rw [validateEmail_eq_true_iff s hs] at h
    obtain ⟨loc, dom, tld, hl, -⟩ := h
    apply hno
    rw [hl]
    simp
  · intro r
    rw [← Bool.not_eq_true]
    intro h
    exact (hsplit [] r h).1 rfl
  · intro l
    rw [← Bool.not_eq_true]
    intro h
    have := (hsplit l [] h).2
    simp at this
  · intro l r hr
    rw [← Bool.not_eq_true]
    intro h
    exact hr (hsplit l r h).2

/-- Witness of C6 at `test@example.com`. -/
theorem validateEmail_iff_email_form_witness :
    ("test@example.com" : String) ≠ "" ∧
    (validateEmail "test@example.com" = true ↔ emailForm "test@example.com".toList) :=
  ⟨by decide, (validateEmail_iff_email_form "test@example.com" (by decide)).2.1⟩

/-! ## The handlers -/

/-- C1: on a parsed body, `CreateEvent`, and `UpdateEvent` with a non-empty id, answer
400 with the message of the first failing check in the order required fields, date, time,
e-mail, and nothing else; when a required field is empty the answer is the
required-fields message whatever date, time and contact_email are. -/
theorem first_failing_check_only (req : CreateEventRequest) (ureq : UpdateEventRequest)
    (id : String) (hid : id ≠ "") (db : Store) (env : Store → Store) :
    (req.missingRequired → (CreateEvent (some req) db).1 =
      ⟨400, .error "Name, venue_name, address, date, and time are required"⟩) ∧
    (¬ req.missingRequired → validateDateFormat req.Date = false →
      (CreateEvent (some req) db).1 =
        ⟨400, .error "Invalid date format. Use YYYY-MM-DD format"⟩) ∧
    (¬ req.missingRequired → validateDateFormat req.Date = true →
      validateTimeFormat req.Time = false →
      (CreateEvent (some req) db).1 = ⟨400, .error "Invalid time format. Use HH:MM:SS format"⟩) ∧
    (¬ req.missingRequired → validateDateFormat req.Date = true →
      validateTimeFormat req.Time = true →
      ∀ email, req.ContactEmail = some email → validateEmail email = false →
      (CreateEvent (some req) db).1 = ⟨400, .error "Invalid email format"⟩) ∧
    (ureq.missingRequired → (UpdateEvent id (some ureq) db env).1 =
      ⟨400, .error "Name, venue_name, address, date, and time are required"⟩) ∧
    (¬ ureq.missingRequired → validateDateFormat ureq.Date = false →
      (UpdateEvent id (some ureq) db env).1 =
        ⟨400, .error "Invalid date format. Use YYYY-MM-DD format"⟩) ∧
    (¬ ureq.missingRequired → validateDateFormat ureq.Date = true →
      validateTimeFormat ureq.Time = false →
      (UpdateEvent id (some ureq) db env).1 =
        ⟨400, .error "Invalid time format. Use HH:MM:SS format"⟩) ∧
    (¬ ureq.missingRequired → validateDateFormat ureq.Date = true →
      validateTimeFormat ureq.Time = true →
      ∀ email, ureq.ContactEmail = some email → validateEmail email = false →
      (UpdateEvent id (some ureq) db env).1 = ⟨400, .error "Invalid email format"⟩) := by
  have hidb : (id == "") = false := by simpa using hid
  refine ⟨?_, ?_, ?_, ?_, ?_, ?_, ?_, ?_⟩
  · intro hm
    have hc : (req.Name == "" || req.VenueName == "" || req.Address == "" || req.Date == ""
        || req.Time == "") = true := by
      simpa [CreateEventRequest.missingRequired, or_assoc] using hm
    simp only [CreateEvent, hc, if_true]
  · intro hm hd
    have hc : (req.Name == "" || req.VenueName == "" || req.Address == "" || req.Date == ""
        || req.Time == "") = false := by
      rw [← Bool.not_eq_true]
      simpa [CreateEventRequest.missingRequired, or_assoc] using hm
    simp [CreateEvent, hc, hd]
  · intro hm hd ht
    have hc : (req.Name == "" || req.VenueName == "" || req.Address == "" || req.Date == ""
        || req.Time == "") = false := by
      rw [← Bool.not_eq_true]
      simpa [CreateEventRequest.missingRequired, or_assoc] using hm
    simp [CreateEvent, hc, hd, ht]
  · intro hm hd ht email he hv
    have hc : (req.Name == "" || req.VenueName == "" || req.Address == "" || req.Date == ""
        || req.Time == "") = false := by
      rw [← Bool.not_eq_true]
      simpa [CreateEventRequest.missingRequired, or_assoc] using hm
    simp [CreateEvent, hc, hd, ht, he, hv]
  · intro hm
    have hc : (ureq.Name == "" || ureq.VenueName == "" || ureq.Address == "" || ureq.Date == ""
        || ureq.Time == "") = true := by
      simpa [UpdateEventRequest.missingRequired, or_assoc] using hm
    simp only [UpdateEvent, hidb, hc, if_true, Bool.false_eq_true, if_false]
  · intro hm hd
    have hc : (ureq.Name == "" || ureq.VenueName == "" || ureq.Address == "" || ureq.Date == ""
        || ureq.Time == "") = false := by
      rw [← Bool.not_eq_true]
      simpa [UpdateEventRequest.missingRequired, or_assoc] using hm
    simp [UpdateEvent, hidb, hc, hd]
  · intro hm hd ht
    have hc : (ureq.Name == "" || ureq.VenueName == "" || ureq.Address == "" || ureq.Date == ""
        || ureq.Time == "") = false := by
      rw [← Bool.not_eq_true]
      simpa [UpdateEventRequest.missingRequired, or_assoc] using hm
    simp [UpdateEvent, hidb, hc, hd, ht]
  · intro hm hd ht email he hv
    have hc : (ureq.Name == "" || ureq.VenueName == "" || ureq.Address == "" || ureq.Date == ""
        || ureq.Time == "") = false := by
      rw [← Bool.not_eq_true]
      simpa [UpdateEventRequest.missingRequired, or_assoc] using hm
    simp [UpdateEvent, hidb, hc, hd, ht, he, hv]

/-- Witness of C1: required fields missing and a malformed e-mail give the
required-fields message only. -/
theorem first_failing_check_only_witness :
    ("123e4567-e89b-12d3-a456-426614174000" : String) ≠ "" ∧
    missingFieldsRequest.missingRequired ∧
    (CreateEvent (some missingFieldsRequest) emptyStore).1 =
      ⟨400, .error "Name, venue_name, address, date, and time are required"⟩ ∧
    (UpdateEvent "123e4567-e89b-12d3-a456-426614174000" (some missingFieldsUpdate) emptyStore
        id).1 =
      ⟨400, .error "Name, venue_name, address, date, and time are required"⟩ :=
  have h := first_failing_check_only missingFieldsRequest missingFieldsUpdate
    "123e4567-e89b-12d3-a456-426614174000" (by decide) emptyStore id
  ⟨by decide, Or.inr (Or.inl rfl), h.1 (Or.inr (Or.inl rfl)),
    h.2.2.2.2.1 (Or.inr (Or.inl rfl))⟩

theorem CreateEvent_of_fails (req : CreateEventRequest) (h : req.failsValidation)
    (db : Store) :
    ∃ msg, CreateEvent (some req) db = (⟨400, .error msg⟩, db) ∧
      ∀ db1 : Store, (CreateEvent (some req) db1).1 = ⟨400, .error msg⟩ := by
  by_cases hc : (req.Name == "" || req.VenueName == "" || req.Address == "" || req.Date == ""
      || req.Time == "") = true
  · exact ⟨"Name, venue_name, address, date, and time are required", by simp only [CreateEvent, hc, if_true], fun db1 => by
      simp only [CreateEvent, hc, if_true]⟩
  · by_cases hd : validateDateFormat req.Date = true
    · by_cases ht : validateTimeFormat req.Time = true
      · have hm : ¬ req.missingRequired := by
          simpa [CreateEventRequest.missingRequired, or_assoc] using hc
        rcases h with h | h | h | ⟨email, he, hv⟩
        · exact absurd h hm
        · rw [hd] at h; cases h
        · rw [ht] at h; cases h
        · exact ⟨"Invalid email format", by simp [CreateEvent, hc, hd, ht, he, hv], fun db1 => by
            simp [CreateEvent, hc, hd, ht, he, hv]⟩
      · exact ⟨"Invalid time format. Use HH:MM:SS format", by simp [CreateEvent, hc, hd, ht], fun db1 => by
          simp [CreateEvent, hc, hd, ht]⟩
    · exact ⟨"Invalid date format. Use YYYY-MM-DD format", by simp [CreateEvent, hc, hd], fun db1 => by simp [CreateEvent, hc, hd]⟩

theorem UpdateEvent_of_fails (id : String) (req : UpdateEventRequest)
    (h : req.failsValidation) (db : Store) (env : Store → Store) :
    ∃ msg, UpdateEvent id (some req) db env = (⟨400, .error msg⟩, db) ∧
      ∀ (db1 : Store) (env1 : Store → Store),
        (UpdateEvent id (some req) db1 env1).1 = ⟨400, .error msg⟩ := by
  by_cases hid : (id == "") = true
  · exact ⟨"Event ID is required", by simp only [UpdateEvent, hid, if_true], fun db1 env1 => by
      simp only [UpdateEvent, hid, if_true]⟩
  by_cases hc : (req.Name == "" || req.VenueName == "" || req.Address == "" || req.Date == ""
      || req.Time == "") = true
  · exact ⟨"Name, venue_name, address, date, and time are required", by simp [UpdateEvent, hid, hc], fun db1 env1 => by
      simp [UpdateEvent, hid, hc]⟩
  · by_cases hd : validateDateFormat req.Date = true
    · by_cases ht : validateTimeFormat req.Time = true
      · have hm : ¬ req.missingRequired := by
          simpa [UpdateEventRequest.missingRequired, or_assoc] using hc
        rcases h with h | h | h | ⟨email, he, hv⟩
        · exact absurd h hm
        · rw [hd] at h; cases h
        · rw [ht] at h; cases h
        · exact ⟨"Invalid email format", by simp [UpdateEvent, hid, hc, hd, ht, he, hv], fun db1 env1 => by
            simp [UpdateEvent, hid, hc, hd, ht, he, hv]⟩
      · exact ⟨"Invalid time format. Use HH:MM:SS format", by simp [UpdateEvent, hid, hc, hd, ht], fun db1 env1 => by
          simp [UpdateEvent, hid, hc, hd, ht]⟩
    · exact ⟨"Invalid date format. Use YYYY-MM-DD format", by simp [UpdateEvent, hid, hc, hd], fun db1 env1 => by
        simp [UpdateEvent, hid, hc, hd]⟩

/-- C2: when the request fails the required-field, date, time or e-mail check,
`CreateEvent` and `UpdateEvent` answer 400 and hand the store back as it was, no statement
received and no row changed, and the answer is the same for every store (for
`UpdateEvent`, whether or not a row with the id exists, and whatever other clients do). -/
theorem validation_failure_before_store (req : CreateEventRequest) (ureq : UpdateEventRequest)
    (id : String) (db db1 : Store) (env env1 : Store → Store)
    (hreq : req.failsValidation) (hureq : ureq.failsValidation) :
    (CreateEvent (some req) db).1.status = 400 ∧
    (CreateEvent (some req) db).2 = db ∧
    (CreateEvent (some req) db).1 = (CreateEvent (some req) db1).1 ∧
    (UpdateEvent id (some ureq) db env).1.status = 400 ∧
    (UpdateEvent id (some ureq) db env).2 = db ∧
    (UpdateEvent id (some ureq) db env).1 = (UpdateEvent id (some ureq) db1 env1).1 := by
  obtain ⟨m1, h1, h1a⟩ := CreateEvent_of_fails req hreq db
  obtain ⟨m2, h2, h2a⟩ := UpdateEvent_of_fails id ureq hureq db env
  refine ⟨by rw [h1], by rw [h1], by rw [h1, h1a db1], by rw [h2], by rw [h2], ?_⟩
  rw [h2, h2a db1 env1]

/-- Witness of C2: the requests with missing fields, on the empty store and on a store
whose connection is down. -/
theorem validation_failure_before_store_witness :
    missingFieldsRequest.failsValidation ∧ missingFieldsUpdate.failsValidation ∧
    (CreateEvent (some missingFieldsRequest) emptyStore).1.status = 400 ∧
    (CreateEvent (some missingFieldsRequest) emptyStore).2 = emptyStore ∧
    (UpdateEvent "e1" (some missingFieldsUpdate) emptyStore id).1 =
      (UpdateEvent "e1" (some missingFieldsUpdate) downStore id).1 :=
  have h := validation_failure_before_store missingFieldsRequest missingFieldsUpdate "e1"
    emptyStore downStore id id (Or.inl (Or.inr (Or.inl rfl))) (Or.inl (Or.inr (Or.inl rfl)))
  ⟨Or.inl (Or.inr (Or.inl rfl)), Or.inl (Or.inr (Or.inl rfl)), h.1, h.2.1, h.2.2.2.2.2⟩

theorem Store.varchar_fits (n : Nat) (v : String) (h : v.length ≤ n) :
    Store.varchar n v = .ok v := by
  simp [Store.varchar, h]

theorem Store.varcharNull_fits (n : Nat) (o : Option String)
    (h : ∀ v, o = some v → v.length ≤ n) : Store.varcharNull n o = .ok o := by
  cases o with
  | none => rfl
  | some v => simp [Store.varcharNull, Store.varchar_fits n v (h v rfl)]

theorem passes_to_bool (req : CreateEventRequest) (hv : req.passesValidation) :
    (req.Name == "" || req.VenueName == "" || req.Address == "" || req.Date == ""
      || req.Time == "") = false ∧
    (match req.ContactEmail with
      | some email => !validateEmail email
      | none => false) = false := by
  obtain ⟨hm, -, -, he⟩ := hv
  constructor
  · rw [← Bool.not_eq_true]
    simpa [CreateEventRequest.missingRequired, or_assoc] using hm
  · cases hce : req.ContactEmail with
    | none => rfl
    | some email => simp [he email hce]

theorem passes_to_bool_update (req : UpdateEventRequest) (hv : req.passesValidation) :
    (req.Name == "" || req.VenueName == "" || req.Address == "" || req.Date == ""
      || req.Time == "") = false ∧
    (match req.ContactEmail with
      | some email => !validateEmail email
      | none => false) = false := by
  obtain ⟨hm, -, -, he⟩ := hv
  constructor
  · rw [← Bool.not_eq_true]
    simpa [UpdateEventRequest.missingRequired, or_assoc] using hm
  · cases hce : req.ContactEmail with
    | none => rfl
    | some email => simp [he email hce]

/-- After validation `CreateEvent` is the `INSERT`: 500 on an error, 201 with the row. -/
theorem CreateEvent_of_passes (req : CreateEventRequest) (hv : req.passesValidation)
    (db : Store) :
    CreateEvent (some req) db =
      match db.queryRowInsert req with
      | (.error _, db1) => (⟨500, .error "Failed to create event"⟩, db1)
      | (.ok event, db1) => (⟨201, .event event⟩, db1) := by
  obtain ⟨hc, he⟩ := passes_to_bool req hv
  simp only [CreateEvent, hc, hv.2.1, hv.2.2.1, he, Bool.not_true, Bool.false_eq_true, if_false]

/-- After validation `UpdateEvent` with an id is the existence check and the `UPDATE`. -/
theorem UpdateEvent_of_passes (id : String) (hid : id ≠ "") (req : UpdateEventRequest)
    (hv : req.passesValidation) (db : Store) (env : Store → Store) :
    UpdateEvent id (some req) db env =
      match db.getIDByID id with
      | (.error _, db1) => (⟨404, .error "Event not found"⟩, db1)
      | (.ok _, db1) =>
        match (env db1).queryRowUpdate id req with
        | (.error _, db2) => (⟨500, .error "Failed to update event"⟩, db2)
        | (.ok event, db2) => (⟨200, .event event⟩, db2) := by
  obtain ⟨hc, he⟩ := passes_to_bool_update req hv
  have hidb : (id == "") = false := by simpa using hid
  simp only [UpdateEvent, hidb, hc, hv.2.1, hv.2.2.1, he, Bool.not_true, Bool.false_eq_true,
    if_false]

theorem sampleRequest_passes : sampleRequest.passesValidation := by
  refine ⟨by unfold CreateEventRequest.missingRequired; decide, by decide, by decide, ?_⟩
  intro email h
  have : email = "test@example.com" := by
    injection h with h
    exact h.symm
  subst this
  decide

theorem sampleUpdate_passes : sampleUpdate.passesValidation := by
  refine ⟨by unfold UpdateEventRequest.missingRequired; decide, by decide, by decide, ?_⟩
  intro email h
  have : email = "test@example.com" := by
    injection h with h
    exact h.symm
  subst this
  decide

theorem longMobileRequest_passes : longMobileRequest.passesValidation := by
  refine ⟨by unfold CreateEventRequest.missingRequired; decide, by decide, by decide, ?_⟩
  intro email h
  have : email = "test@example.com" := by
    injection h with h
    exact h.symm
  subst this
  decide

theorem sampleRequest_fits : sampleRequest.fitsColumns := by
  refine ⟨by decide, by decide, ?_, ?_, ?_⟩
  · intro v h; cases h
  · intro v h
    have : v = "test@example.com" := by
      injection h with h
      exact h.symm
    subst this
    decide
  · intro v h; cases h

/-- C8 as stated fails: a request that passes the four checks, with a contact_mobile of 25
characters, sent to a reachable store, is answered 500, the column being `VARCHAR(20)`;
and the sample request is answered 201 with an event whose date and time are not the
request's `2024-03-15` and `14:30:00` but `2024-03-15T00:00:00Z` and
`0000-01-01T14:30:00Z`. -/
theorem create_is_no_round_trip :
    longMobileRequest.passesValidation ∧ emptyStore.fault = none ∧
    (CreateEvent (some longMobileRequest) emptyStore).1 =
      ⟨500, .error "Failed to create event"⟩ ∧
    sampleRequest.passesValidation ∧ sampleRequest.fitsColumns ∧
    (∃ ev, (CreateEvent (some sampleRequest) emptyStore).1 = ⟨201, .event ev⟩ ∧
      ev.Date = "2024-03-15T00:00:00Z" ∧ ev.Date ≠ sampleRequest.Date ∧
      ev.Time = "0000-01-01T14:30:00Z" ∧ ev.Time ≠ sampleRequest.Time) :=
  ⟨longMobileRequest_passes, rfl, by decide, sampleRequest_passes, sampleRequest_fits,
    ⟨{ storedEvent with ID := "event-0", Date := "2024-03-15T00:00:00Z",
                        Time := "0000-01-01T14:30:00Z",
                        ContactEmail := some "test@example.com" },
      by decide, rfl, by decide, rfl, by decide⟩⟩

/-- C8, amended: for a request that passes the four checks, whose name, venue_name,
contact_mobile, contact_email and contact_instagram fit the widths of their columns (255,
255, 20, 255, 100) and whose date and time the store takes for its `DATE` and `TIME`
columns, `CreateEvent` on a reachable store answers 201 with an event whose name,
description, venue_name, address and contact fields are those of the request, an optional
field being unset exactly when the request leaves it unset. -/
theorem create_returns_text_fields (req : CreateEventRequest) (db : Store)
    (date time : String)
    (hv : req.passesValidation) (hdb : db.fault = none) (hfit : req.fitsColumns)
    (hdate : db.dateIn req.Date = some date) (htime : db.timeIn req.Time = some time) :
    ∃ ev, (CreateEvent (some req) db).1 = ⟨201, .event ev⟩ ∧
      ev.Name = req.Name ∧ ev.Description = req.Description ∧ ev.VenueName = req.VenueName ∧
      ev.Address = req.Address ∧
      ev.ContactMobile = req.ContactMobile ∧ ev.ContactEmail = req.ContactEmail ∧
      ev.ContactInstagram = req.ContactInstagram := by
  obtain ⟨f1, f2, f3, f4, f5⟩ := hfit
  rw [CreateEvent_of_passes req hv db]
  simp only [Store.queryRowInsert, Store.received, hdb, hdate, htime, Store.checked,
    Store.varchar_fits 255 req.Name f1, Store.varchar_fits 255 req.VenueName f2,
    Store.varcharNull_fits 20 req.ContactMobile f3,
    Store.varcharNull_fits 255 req.ContactEmail f4,
    Store.varcharNull_fits 100 req.ContactInstagram f5]
  exact ⟨_, rfl, rfl, rfl, rfl, rfl, rfl, rfl, rfl⟩

/-- Witness of C8, amended: the sample request on the empty store. -/
theorem create_returns_text_fields_witness :
    sampleRequest.passesValidation ∧ emptyStore.fault = none ∧ sampleRequest.fitsColumns ∧
    emptyStore.dateIn sampleRequest.Date = some "2024-03-15" ∧
    emptyStore.timeIn sampleRequest.Time = some "14:30:00" ∧
    ∃ ev, (CreateEvent (some sampleRequest) emptyStore).1 = ⟨201, .event ev⟩ ∧
      ev.Name = sampleRequest.Name ∧ ev.Description = sampleRequest.Description ∧
      ev.VenueName = sampleRequest.VenueName ∧
      ev.Address = sampleRequest.Address ∧
      ev.ContactMobile = sampleRequest.ContactMobile ∧
      ev.ContactEmail = sampleRequest.ContactEmail ∧
      ev.ContactInstagram = sampleRequest.ContactInstagram :=
  ⟨sampleRequest_passes, rfl, sampleRequest_fits, by decide, by decide,
    create_returns_text_fields sampleRequest emptyStore "2024-03-15" "14:30:00"
      sampleRequest_passes rfl sampleRequest_fits (by decide) (by decide)⟩

theorem find_none_of_no_row (rows : List Event) (id : String)
    (hno : ∀ r ∈ rows, r.ID ≠ id) : rows.find? (fun r => r.ID == id) = none := by
  rw [List.find?_eq_none]
  intro r hr
  simpa using hno r hr

/-- A `DB.Get` for an id that matches no row fails, whatever the state of the connection. -/
theorem getByID_no_row (db : Store) (id : String) (hno : ∀ r ∈ db.rows, r.ID ≠ id) :
    ∃ e, db.getByID id = (.error e, db.received (.selectByID id)) := by
  have hfind : (db.received (.selectByID id)).rows.find? (fun r => r.ID == id) = none :=
    find_none_of_no_row _ id hno
  cases hf : (db.received (.selectByID id)).fault with
  | some msg =>
    refine ⟨.failure msg, ?_⟩
    simp only [Store.getByID, hf]
  | none =>
    refine ⟨.errNoRows, ?_⟩
    simp only [Store.getByID, hf, hfind]

theorem getIDByID_no_row (db : Store) (id : String) (hno : ∀ r ∈ db.rows, r.ID ≠ id) :
    ∃ e, db.getIDByID id = (.error e, db.received (.selectIDByID id)) := by
  have hfind : (db.received (.selectIDByID id)).rows.find? (fun r => r.ID == id) = none :=
    find_none_of_no_row _ id hno
  cases hf : (db.received (.selectIDByID id)).fault with
  | some msg =>
    refine ⟨.failure msg, ?_⟩
    simp only [Store.getIDByID, hf]
  | none =>
    refine ⟨.errNoRows, ?_⟩
    simp only [Store.getIDByID, hf, hfind]

/-- C9 as stated fails at the empty id, which matches no row: the three handlers answer
400 `Event ID is required`, not 404. -/
theorem empty_id_is_bad_request :
    (∀ r ∈ emptyStore.rows, r.ID ≠ "") ∧
    (GetEventByID "" emptyStore).1 = ⟨400, .error "Event ID is required"⟩ ∧
    (UpdateEvent "" (some sampleUpdate) emptyStore id).1 =
      ⟨400, .error "Event ID is required"⟩ ∧
    (DeleteEvent "" emptyStore id).1 = ⟨400, .error "Event ID is required"⟩ := by
  refine ⟨?_, by decide, by decide, by decide⟩
  intro r hr
  cases hr

/-- C9, amended: for a non-empty id that matches no row, `GetEventByID`, `UpdateEvent`
with a request that passes validation, and `DeleteEvent` answer 404 `Event not found`; the
store has then received the one `SELECT` and nothing else, no `UPDATE` and no `DELETE`, and
its rows are unchanged. -/
theorem not_found_without_mutation (id : String) (ureq : UpdateEventRequest) (db : Store)
    (env : Store → Store) (hid : id ≠ "") (hno : ∀ r ∈ db.rows, r.ID ≠ id)
    (hv : ureq.passesValidation) :
    GetEventByID id db = (⟨404, .error "Event not found"⟩, db.received (.selectByID id)) ∧
    UpdateEvent id (some ureq) db env =
      (⟨404, .error "Event not found"⟩, db.received (.selectIDByID id)) ∧
    DeleteEvent id db env =
      (⟨404, .error "Event not found"⟩, db.received (.selectIDByID id)) ∧
    (GetEventByID id db).2.rows = db.rows ∧
    (UpdateEvent id (some ureq) db env).2.rows = db.rows ∧
    (DeleteEvent id db env).2.rows = db.rows ∧
    (GetEventByID id db).2.log = db.log ++ [.selectByID id] ∧
    (UpdateEvent id (some ureq) db env).2.log = db.log ++ [.selectIDByID id] ∧
    (DeleteEvent id db env).2.log = db.log ++ [.selectIDByID id] := by
  have hidb : (id == "") = false := by simpa using hid
  obtain ⟨e1, h1⟩ := getByID_no_row db id hno
  obtain ⟨e2, h2⟩ := getIDByID_no_row db id hno
  have hg : GetEventByID id db
      = (⟨404, .error "Event not found"⟩, db.received (.selectByID id)) := by
    simp only [GetEventByID, hidb, h1, Bool.false_eq_true, if_false]
  have hu : UpdateEvent id (some ureq) db env
      = (⟨404, .error "Event not found"⟩, db.received (.selectIDByID id)) := by
    rw [UpdateEvent_of_passes id hid ureq hv db env, h2]
  have hd : DeleteEvent id db env
      = (⟨404, .error "Event not found"⟩, db.received (.selectIDByID id)) := by
    simp only [DeleteEvent, hidb, h2, Bool.false_eq_true, if_false]
  refine ⟨hg, hu, hd, ?_, ?_, ?_, ?_, ?_, ?_⟩ <;> simp only [hg, hu, hd, Store.received]

/-- Witness of C9, amended: the id `e1` on the empty store. -/
theorem not_found_without_mutation_witness :
    ("e1" : String) ≠ "" ∧ (∀ r ∈ emptyStore.rows, r.ID ≠ "e1") ∧
    sampleUpdate.passesValidation ∧
    GetEventByID "e1" emptyStore =
      (⟨404, .error "Event not found"⟩, emptyStore.received (.selectByID "e1")) ∧
    (DeleteEvent "e1" emptyStore id).2.rows = emptyStore.rows :=
  have hno : ∀ r ∈ emptyStore.rows, r.ID ≠ "e1" := fun r hr => by cases hr
  have h := not_found_without_mutation "e1" sampleUpdate emptyStore id (by decide) hno
    sampleUpdate_passes
  ⟨by decide, hno, sampleUpdate_passes, h.1, h.2.2.2.2.2.1⟩

/-- C10 as stated fails: on a store whose connection is down the `DB.Get` of
`GetEventByID` returns a failure that is not `sql.ErrNoRows`, and the answer is 404, as
it is at the existence checks of `UpdateEvent` and `DeleteEvent`. -/
theorem storage_failure_reported_as_not_found :
    (downStore.getByID "e1").1 = .error (.failure "connection refused") ∧
    (GetEventByID "e1" downStore).1 = ⟨404, .error "Event not found"⟩ ∧
    (downStore.getIDByID "e1").1 = .error (.failure "connection refused") ∧
    (UpdateEvent "e1" (some sampleUpdate) downStore id).1 = ⟨404, .error "Event not found"⟩ ∧
    (DeleteEvent "e1" downStore id).1 = ⟨404, .error "Event not found"⟩ := by
  refine ⟨rfl, by decide, rfl, by decide, by decide⟩

/-- C10, amended: at the `DB.Get` of `GetEventByID` and at the existence checks of
`UpdateEvent` and `DeleteEvent` every store error, `sql.ErrNoRows` or any other failure
alike, is answered 404 `Event not found`; once the existence check has succeeded, a
storage failure of the `UPDATE` or of the `DELETE` is answered 500. -/
theorem store_errors_by_call_site (id : String) (ureq : UpdateEventRequest) (db : Store)
    (env : Store → Store) (hid : id ≠ "") (hv : ureq.passesValidation) :
    (∀ e, (db.getByID id).1 = .error e →
      (GetEventByID id db).1 = ⟨404, .error "Event not found"⟩) ∧
    (∀ e, (db.getIDByID id).1 = .error e →
      (UpdateEvent id (some ureq) db env).1 = ⟨404, .error "Event not found"⟩ ∧
      (DeleteEvent id db env).1 = ⟨404, .error "Event not found"⟩) ∧
    (∀ found msg, (db.getIDByID id).1 = .ok found →
      ((env (db.getIDByID id).2).queryRowUpdate id ureq).1 = .error (.failure msg) →
      (UpdateEvent id (some ureq) db env).1 = ⟨500, .error "Failed to update event"⟩) ∧
    (∀ found msg, (db.getIDByID id).1 = .ok found →
      ((env (db.getIDByID id).2).execDelete id).1 = .error (.failure msg) →
      (DeleteEvent id db env).1 = ⟨500, .error "Failed to delete event"⟩) := by
  have hidb : (id == "") = false := by simpa using hid
  refine ⟨?_, ?_, ?_, ?_⟩
  · intro e he
    simp only [GetEventByID, hidb, Bool.false_eq_true, if_false]
    cases hres : db.getByID id with
    | mk r db1 =>
      rw [hres] at he
      simp only at he
      subst he
      rfl
  · intro e he
    rw [UpdateEvent_of_passes id hid ureq hv db env]
    simp only [DeleteEvent, hidb, Bool.false_eq_true, if_false]
    cases hres : db.getIDByID id with
    | mk r db1 =>
      rw [hres] at he
      simp only at he
      subst he
      exact ⟨rfl, rfl⟩
  · intro found msg hf hu
    rw [UpdateEvent_of_passes id hid ureq hv db env]
    cases hres : db.getIDByID id with
    | mk r db1 =>
      rw [hres] at hf hu
      simp only at hf hu
      subst hf
      simp only
      cases hres2 : (env db1).queryRowUpdate id ureq with
      | mk r2 db2 =>
        rw [hres2] at hu
        simp only at hu
        subst hu
        rfl
  · intro found msg hf hu
    simp only [DeleteEvent, hidb, Bool.false_eq_true, if_false]
    cases hres : db.getIDByID id with
    | mk r db1 =>
      rw [hres] at hf hu
      simp only at hf hu
      subst hf
      simp only
      cases hres2 : (env db1).execDelete id with
      | mk r2 db2 =>
        rw [hres2] at hu
        simp only at hu
        subst hu
        rfl

/-- Witness of C10, amended: the id `e1` and the sample update on the store whose
connection is down. -/
theorem store_errors_by_call_site_witness :
    ("e1" : String) ≠ "" ∧ sampleUpdate.passesValidation ∧
    (downStore.getByID "e1").1 = .error (.failure "connection refused") ∧
    (GetEventByID "e1" downStore).1 = ⟨404, .error "Event not found"⟩ :=
  have h := store_errors_by_call_site "e1" sampleUpdate downStore id (by decide)
    sampleUpdate_passes
  ⟨by decide, sampleUpdate_passes, rfl, h.1 (.failure "connection refused") rfl⟩

/-- C11 at the failing input: the row `sampleID` is there at the existence check of
`UpdateEvent` and is deleted by another client before the `UPDATE`; the statement returns
no row, `Scan` reports `sql.ErrNoRows`, and the answer is 500 `Failed to update event`,
not 404. `DeleteEvent` in the same race answers 404. -/
theorem update_race_answers_500 :
    sampleUpdate.passesValidation ∧
    (oneRowStore.getIDByID sampleID).1 = .ok sampleID ∧
    ((concurrentDelete sampleID (oneRowStore.getIDByID sampleID).2).queryRowUpdate sampleID
      sampleUpdate).1 = .error .errNoRows ∧
    (UpdateEvent sampleID (some sampleUpdate) oneRowStore (concurrentDelete sampleID)).1 =
      ⟨500, .error "Failed to update event"⟩ ∧
    (DeleteEvent sampleID oneRowStore (concurrentDelete sampleID)).1 =
      ⟨404, .error "Event not found"⟩ :=
  ⟨sampleUpdate_passes, rfl, rfl, by decide, by decide⟩

/-- C12: for a non-empty id, when the existence check of `DeleteEvent` succeeds and the
`DELETE` runs without error, the answer is 404 `Event not found` if no row was affected
and 204 with no body if at least one was. -/
theorem delete_answer_by_rows_affected (id : String) (db : Store) (env : Store → Store)
    (found : String) (n : Nat) (hid : id ≠ "")
    (hcheck : (db.getIDByID id).1 = .ok found)
    (hdel : ((env (db.getIDByID id).2).execDelete id).1 = .ok n) :
    (n = 0 → (DeleteEvent id db env).1 = ⟨404, .error "Event not found"⟩) ∧
    (1 ≤ n → (DeleteEvent id db env).1 = ⟨204, .empty⟩) := by
  have hidb : (id == "") = false := by simpa using hid
  simp only [DeleteEvent, hidb, Bool.false_eq_true, if_false]
  cases hres : db.getIDByID id with
  | mk r db1 =>
    rw [hres] at hcheck hdel
    simp only at hcheck hdel
    subst hcheck
    simp only
    cases hres2 : (env db1).execDelete id with
    | mk r2 db2 =>
      rw [hres2] at hdel
      simp only at hdel
      subst hdel
      simp only
      constructor
      · intro h0
        subst h0
        rfl
      · intro h1
        have hne : (n == 0) = false := by
          rw [beq_eq_false_iff_ne]
          omega
        simp only [hne, Bool.false_eq_true, if_false]

/-- Witness of C12: the row `sampleID` deleted by this request (one row affected, 204), and
the same request when another client has deleted the row first (no row affected, 404). -/
theorem delete_answer_by_rows_affected_witness :
    sampleID ≠ "" ∧
    (oneRowStore.getIDByID sampleID).1 = .ok sampleID ∧
    ((id (oneRowStore.getIDByID sampleID).2).execDelete sampleID).1 = .ok 1 ∧
    ((concurrentDelete sampleID (oneRowStore.getIDByID sampleID).2).execDelete sampleID).1 = .ok 0 ∧
    (DeleteEvent sampleID oneRowStore id).1 = ⟨204, .empty⟩ ∧
    (DeleteEvent sampleID oneRowStore (concurrentDelete sampleID)).1 =
      ⟨404, .error "Event not found"⟩ :=
  ⟨by decide, rfl, rfl, rfl,
    (delete_answer_by_rows_affected sampleID oneRowStore id sampleID 1 (by decide) rfl rfl).2
      (Nat.le_refl 1),
    (delete_answer_by_rows_affected sampleID oneRowStore (concurrentDelete sampleID) sampleID 0
      (by decide) rfl rfl).1 rfl⟩

theorem Store.before_total (a b : Event) : Store.before a b ∨ Store.before b a := by
  unfold Store.before
  omega

theorem Store.before_trans (a b c : Event) (hab : Store.before a b) (hbc : Store.before b c) :
    Store.before a c := by
  unfold Store.before at *
  omega

theorem Store.scannedDateValue_scan (row : Event) :
    Store.scannedDateValue (Store.scan row).Date = Store.dateValue row.Date := by
  have h : (Store.scan row).Date.toList = row.Date.toList ++ "T00:00:00Z".toList := rfl
  unfold Store.scannedDateValue
  rw [h]
  have hlen : (row.Date.toList ++ "T00:00:00Z".toList).length - 10 = row.Date.toList.length := by
    rw [List.length_append]
    have : "T00:00:00Z".toList.length = 10 := rfl
    omega
  rw [hlen, List.take_left' rfl]
  rfl

theorem Store.scannedTimeValue_scan (row : Event) :
    Store.scannedTimeValue (Store.scan row).Time = Store.timeValue row.Time := by
  have h : (Store.scan row).Time.toList
      = "0000-01-01T".toList ++ (row.Time.toList ++ "Z".toList) := by
    show ("0000-01-01T" ++ row.Time ++ "Z").toList = _
    simp [String.toList, List.append_assoc]
  unfold Store.scannedTimeValue
  rw [h]
  have hdrop : ("0000-01-01T".toList ++ (row.Time.toList ++ "Z".toList)).drop 11
      = row.Time.toList ++ "Z".toList := by
    exact @List.drop_left' Char "0000-01-01T".toList (row.Time.toList ++ "Z".toList) 11 rfl
  have hlen : ("0000-01-01T".toList ++ (row.Time.toList ++ "Z".toList)).length - 12
      = row.Time.toList.length := by
    simp only [List.length_append]
    have h1 : "0000-01-01T".toList.length = 11 := rfl
    have h2 : "Z".toList.length = 1 := rfl
    omega
  rw [hdrop, hlen, List.take_left' rfl]
  rfl

/-- The `SELECT ... ORDER BY date, time` on a working connection and a table that is not
empty returns the rows of the table, each once, scanned, in the order of `ORDER BY`. -/
theorem Store.selectAll_ok (db : Store) (hdb : db.fault = none) (hrows : db.rows ≠ []) :
    ∃ sorted : List Event,
      db.selectAll = (.ok (some (sorted.map Store.scan)), db.received .selectAll) ∧
      sorted.Perm db.rows ∧ sorted.Pairwise Store.before := by
  haveI : IsTotal Event Store.before := ⟨Store.before_total⟩
  haveI : IsTrans Event Store.before := ⟨Store.before_trans⟩
  refine ⟨db.rows.insertionSort Store.before, ?_, List.perm_insertionSort _ _,
    List.sorted_insertionSort _ _⟩
  have hne : (db.rows.insertionSort Store.before).map Store.scan ≠ [] := by
    intro h
    have h1 : db.rows.insertionSort Store.before = [] := List.map_eq_nil_iff.1 h
    have h2 := List.perm_insertionSort Store.before db.rows
    rw [h1] at h2
    exact hrows (List.Perm.nil_eq h2).symm
  simp only [Store.selectAll, Store.received, hdb]
  cases hm : (db.rows.insertionSort Store.before).map Store.scan with
  | nil => exact absurd hm hne
  | cons e es => rfl

/-- C13 as stated fails on a store whose connection is down, which has no rows and gets
500 `Failed to fetch events`, and on the empty table of a working store, where the slice
is still nil and the body is `null`, not an empty collection. -/
theorem get_all_without_collection :
    downStore.rows = [] ∧
    (GetAllEvents downStore).1 = ⟨500, .error "Failed to fetch events"⟩ ∧
    emptyStore.rows = [] ∧ emptyStore.fault = none ∧
    (GetAllEvents emptyStore).1 = ⟨200, .events none⟩ :=
  ⟨rfl, by decide, rfl, rfl, by decide⟩

/-- C13, amended: on every store whose connection works and whose table has at least one
row, `GetAllEvents` answers 200 with the stored events, each row once and none missing,
ordered by date ascending and, among events of the same date, by time ascending; after
the events of 2024-03-16 and then 2024-03-15 have been created, the one of 2024-03-15
comes first. -/
theorem get_all_sorted_by_date_time (db : Store) (hdb : db.fault = none)
    (hrows : db.rows ≠ []) :
    (∃ es, (GetAllEvents db).1 = ⟨200, .events (some es)⟩ ∧
      es.Perm (db.rows.map Store.scan) ∧
      es.Pairwise (fun a b =>
        Store.scannedDateValue a.Date < Store.scannedDateValue b.Date ∨
          (Store.scannedDateValue a.Date = Store.scannedDateValue b.Date ∧
            Store.scannedTimeValue a.Time ≤ Store.scannedTimeValue b.Time))) ∧
    (GetAllEvents db).2.rows = db.rows ∧
    (∃ first second,
      (GetAllEvents twoEventStore).1 = ⟨200, .events (some [first, second])⟩ ∧
      first.Date = "2024-03-15T00:00:00Z" ∧ second.Date = "2024-03-16T00:00:00Z") := by
  obtain ⟨sorted, hsel, hperm, hsorted⟩ := Store.selectAll_ok db hdb hrows
  have hget : GetAllEvents db
      = (⟨200, .events (some (sorted.map Store.scan))⟩, db.received .selectAll) := by
    simp only [GetAllEvents, hsel]
  refine ⟨⟨sorted.map Store.scan, by rw [hget], hperm.map Store.scan, ?_⟩,
    by rw [hget]; rfl, ?_⟩
  · rw [List.pairwise_map]
    refine hsorted.imp ?_
    intro a b hab
    rw [Store.scannedDateValue_scan, Store.scannedDateValue_scan,
      Store.scannedTimeValue_scan, Store.scannedTimeValue_scan]
    exact hab
  · exact ⟨{ storedEvent with ID := "event-1", Date := "2024-03-15T00:00:00Z",
                              Time := "0000-01-01T14:30:00Z",
                              ContactEmail := some "test@example.com" },
      { storedEvent with ID := "event-0", Date := "2024-03-16T00:00:00Z",
                         Time := "0000-01-01T14:30:00Z",
                         ContactEmail := some "test@example.com" }, by decide, rfl, rfl⟩

/-- Witness of C13, amended: the store with one row. -/
theorem get_all_sorted_by_date_time_witness :
    oneRowStore.fault = none ∧ oneRowStore.rows ≠ [] ∧
    ∃ es, (GetAllEvents oneRowStore).1 = ⟨200, .events (some es)⟩ ∧
      es.Perm (oneRowStore.rows.map Store.scan) :=
  have hne : oneRowStore.rows ≠ [] := by
    intro h
    cases h
  have h := (get_all_sorted_by_date_time oneRowStore rfl hne).1
  ⟨rfl, hne, h.elim (fun es hes => ⟨es, hes.1, hes.2.1⟩)⟩

theorem Store.queryRowInsert_log (db : Store) (req : CreateEventRequest) :
    (db.queryRowInsert req).2.log = db.log ++ [.insert req] := by
  unfold Store.queryRowInsert
  simp only
  repeat (first | rfl | split)

theorem Store.selectAll_log (db : Store) : db.selectAll.2.log = db.log ++ [.selectAll] := by
  unfold Store.selectAll
  simp only
  repeat (first | rfl | split)

theorem Store.getIDByID_log (db : Store) (id : String) :
    (db.getIDByID id).2.log = db.log ++ [.selectIDByID id] := by
  unfold Store.getIDByID
  simp only
  split
  · rfl
  · split <;> rfl

theorem Store.queryRowUpdate_log (db : Store) (id : String) (req : UpdateEventRequest) :
    (db.queryRowUpdate id req).2.log = db.log ++ [.update id req] := by
  unfold Store.queryRowUpdate
  simp only
  repeat (first | rfl | split)

theorem Store.execDelete_log (db : Store) (id : String) :
    (db.execDelete id).2.log = db.log ++ [.delete id] := by
  unfold Store.execDelete
  simp only
  split <;> rfl

theorem CreateEvent_insert_error (req : CreateEventRequest) (hv : req.passesValidation)
    (db : Store) (e : DbError) (h : (db.queryRowInsert req).1 = .error e) :
    CreateEvent (some req) db =
      (⟨500, .error "Failed to create event"⟩, (db.queryRowInsert req).2) := by
  rw [CreateEvent_of_passes req hv db]
  cases hres : db.queryRowInsert req with
  | mk r d =>
    rw [hres] at h
    simp only at h
    subst h
    rfl

theorem GetAllEvents_select_error (db : Store) (e : DbError) (h : db.selectAll.1 = .error e) :
    GetAllEvents db = (⟨500, .error "Failed to fetch events"⟩, db.selectAll.2) := by
  unfold GetAllEvents
  cases hres : db.selectAll with
  | mk r d =>
    rw [hres] at h
    simp only at h
    subst h
    rfl

theorem UpdateEvent_check_error (id : String) (hid : id ≠ "") (req : UpdateEventRequest)
    (hv : req.passesValidation) (db : Store) (env : Store → Store) (e : DbError)
    (h : (db.getIDByID id).1 = .error e) :
    UpdateEvent id (some req) db env =
      (⟨404, .error "Event not found"⟩, (db.getIDByID id).2) := by
  rw [UpdateEvent_of_passes id hid req hv db env]
  cases hres : db.getIDByID id with
  | mk r d =>
    rw [hres] at h
    simp only at h
    subst h
    rfl

theorem UpdateEvent_update_error (id : String) (hid : id ≠ "") (req : UpdateEventRequest)
    (hv : req.passesValidation) (db : Store) (env : Store → Store) (found : String)
    (e : DbError) (hc : (db.getIDByID id).1 = .ok found)
    (h : ((env (db.getIDByID id).2).queryRowUpdate id req).1 = .error e) :
    UpdateEvent id (some req) db env =
      (⟨500, .error "Failed to update event"⟩,
        ((env (db.getIDByID id).2).queryRowUpdate id req).2) := by
  rw [UpdateEvent_of_passes id hid req hv db env]
  cases hres : db.getIDByID id with
  | mk r d =>
    rw [hres] at hc h
    simp only at hc h
    subst hc
    simp only
    cases hres2 : (env d).queryRowUpdate id req with
    | mk r2 d2 =>
      rw [hres2] at h
      simp only at h
      subst h
      rfl

theorem DeleteEvent_check_error (id : String) (hid : id ≠ "") (db : Store)
    (env : Store → Store) (e : DbError) (h : (db.getIDByID id).1 = .error e) :
    DeleteEvent id db env = (⟨404, .error "Event not found"⟩, (db.getIDByID id).2) := by
  have hidb : (id == "") = false := by simpa using hid
  simp only [DeleteEvent, hidb, Bool.false_eq_true, if_false]
  cases hres : db.getIDByID id with
  | mk r d =>
    rw [hres] at h
    simp only at h
    subst h
    rfl

theorem DeleteEvent_exec_error (id : String) (hid : id ≠ "") (db : Store)
    (env : Store → Store) (found : String) (e : DbError)
    (hc : (db.getIDByID id).1 = .ok found)
    (h : ((env (db.getIDByID id).2).execDelete id).1 = .error e) :
    DeleteEvent id db env =
      (⟨500, .error "Failed to delete event"⟩, ((env (db.getIDByID id).2).execDelete id).2) := by
  have hidb : (id == "") = false := by simpa using hid
  simp only [DeleteEvent, hidb, Bool.false_eq_true, if_false]
  cases hres : db.getIDByID id with
  | mk r d =>
    rw [hres] at hc h
    simp only at hc h
    subst hc
    simp only
    cases hres2 : (env d).execDelete id with
    | mk r2 d2 =>
      rw [hres2] at h
      simp only at h
      subst h
      rfl

/-- C14 as stated fails at the existence checks: when the `SELECT id` of `UpdateEvent` or
`DeleteEvent` fails with a storage error, the answer is 404, not 500. -/
theorem check_failure_answers_404 :
    sampleUpdate.passesValidation ∧
    (downStore.getIDByID sampleID).1 = .error (.failure "connection refused") ∧
    (UpdateEvent sampleID (some sampleUpdate) downStore id).1.status = 404 ∧
    (DeleteEvent sampleID downStore id).1.status = 404 :=
  ⟨sampleUpdate_passes, rfl, by decide, by decide⟩

/-- C14, amended: for any two storage errors, with texts `m1` and `m2`, returned by the
same store call on the same request, the two answers are the same and carry a fixed
message, the same for every error: 500 `Failed to create event` at the `INSERT`, 500
`Failed to fetch events` at the `SELECT` of `GetAllEvents`, 500 `Failed to update event`
at the `UPDATE`, 500 `Failed to delete event` at the `DELETE`, and 404 `Event not found`
at the existence checks of `UpdateEvent` and `DeleteEvent`; the store has received the
failing statement once. -/
theorem storage_errors_fixed_answer (req : CreateEventRequest) (ureq : UpdateEventRequest)
    (id : String) (db1 db2 : Store) (env1 env2 : Store → Store) (m1 m2 : String)
    (hid : id ≠ "") (hreq : req.passesValidation) (hureq : ureq.passesValidation) :
    ((db1.queryRowInsert req).1 = .error (.failure m1) →
      (db2.queryRowInsert req).1 = .error (.failure m2) →
      (CreateEvent (some req) db1).1 = ⟨500, .error "Failed to create event"⟩ ∧
      (CreateEvent (some req) db2).1 = (CreateEvent (some req) db1).1 ∧
      (CreateEvent (some req) db1).2.log = db1.log ++ [.insert req]) ∧
    (db1.selectAll.1 = .error (.failure m1) → db2.selectAll.1 = .error (.failure m2) →
      (GetAllEvents db1).1 = ⟨500, .error "Failed to fetch events"⟩ ∧
      (GetAllEvents db2).1 = (GetAllEvents db1).1 ∧
      (GetAllEvents db1).2.log = db1.log ++ [.selectAll]) ∧
    (∀ f1 f2, (db1.getIDByID id).1 = .ok f1 → (db2.getIDByID id).1 = .ok f2 →
      ((env1 (db1.getIDByID id).2).queryRowUpdate id ureq).1 = .error (.failure m1) →
      ((env2 (db2.getIDByID id).2).queryRowUpdate id ureq).1 = .error (.failure m2) →
      (UpdateEvent id (some ureq) db1 env1).1 = ⟨500, .error "Failed to update event"⟩ ∧
      (UpdateEvent id (some ureq) db2 env2).1 = (UpdateEvent id (some ureq) db1 env1).1 ∧
      (UpdateEvent id (some ureq) db1 env1).2.log =
        (env1 (db1.getIDByID id).2).log ++ [.update id ureq]) ∧
    (∀ f1 f2, (db1.getIDByID id).1 = .ok f1 → (db2.getIDByID id).1 = .ok f2 →
      ((env1 (db1.getIDByID id).2).execDelete id).1 = .error (.failure m1) →
      ((env2 (db2.getIDByID id).2).execDelete id).1 = .error (.failure m2) →
      (DeleteEvent id db1 env1).1 = ⟨500, .error "Failed to delete event"⟩ ∧
      (DeleteEvent id db2 env2).1 = (DeleteEvent id db1 env1).1 ∧
      (DeleteEvent id db1 env1).2.log = (env1 (db1.getIDByID id).2).log ++ [.delete id]) ∧
    ((db1.getIDByID id).1 = .error (.failure m1) →
      (db2.getIDByID id).1 = .error (.failure m2) →
      (UpdateEvent id (some ureq) db1 env1).1 = ⟨404, .error "Event not found"⟩ ∧
      (UpdateEvent id (some ureq) db2 env2).1 = (UpdateEvent id (some ureq) db1 env1).1 ∧
      (UpdateEvent id (some ureq) db1 env1).2.log = db1.log ++ [.selectIDByID id] ∧
      (DeleteEvent id db1 env1).1 = ⟨404, .error "Event not found"⟩ ∧
      (DeleteEvent id db2 env2).1 = (DeleteEvent id db1 env1).1 ∧
      (DeleteEvent id db1 env1).2.log = db1.log ++ [.selectIDByID id]) := by
  refine ⟨?_, ?_, ?_, ?_, ?_⟩
  · intro h1 h2
    rw [CreateEvent_insert_error req hreq db1 _ h1, CreateEvent_insert_error req hreq db2 _ h2]
    exact ⟨rfl, rfl, Store.queryRowInsert_log db1 req⟩
  · intro h1 h2
    rw [GetAllEvents_select_error db1 _ h1, GetAllEvents_select_error db2 _ h2]
    exact ⟨rfl, rfl, Store.selectAll_log db1⟩
  · intro f1 f2 c1 c2 h1 h2
    rw [UpdateEvent_update_error id hid ureq hureq db1 env1 f1 _ c1 h1,
      UpdateEvent_update_error id hid ureq hureq db2 env2 f2 _ c2 h2]
    exact ⟨rfl, rfl, Store.queryRowUpdate_log _ id ureq⟩
  · intro f1 f2 c1 c2 h1 h2
    rw [DeleteEvent_exec_error id hid db1 env1 f1 _ c1 h1,
      DeleteEvent_exec_error id hid db2 env2 f2 _ c2 h2]
    exact ⟨rfl, rfl, Store.execDelete_log _ id⟩
  · intro h1 h2
    rw [UpdateEvent_check_error id hid ureq hureq db1 env1 _ h1,
      UpdateEvent_check_error id hid ureq hureq db2 env2 _ h2,
      DeleteEvent_check_error id hid db1 env1 _ h1,
      DeleteEvent_check_error id hid db2 env2 _ h2]
    exact ⟨rfl, rfl, Store.getIDByID_log db1 id, rfl, rfl, Store.getIDByID_log db1 id⟩

/-- Witness of C14, amended: the sample requests on two stores whose connections fail
with different texts. -/
theorem storage_errors_fixed_answer_witness :
    sampleID ≠ "" ∧ sampleRequest.passesValidation ∧ sampleUpdate.passesValidation ∧
    (downStore.queryRowInsert sampleRequest).1 = .error (.failure "connection refused") ∧
    (({ emptyStore with fault := some "timeout" } : Store).queryRowInsert sampleRequest).1 =
      .error (.failure "timeout") ∧
    (CreateEvent (some sampleRequest) downStore).1 = ⟨500, .error "Failed to create event"⟩ ∧
    (CreateEvent (some sampleRequest) { emptyStore with fault := some "timeout" }).1 =
      (CreateEvent (some sampleRequest) downStore).1 ∧
    (CreateEvent (some sampleRequest) downStore).2.log =
      downStore.log ++ [.insert sampleRequest] :=
  ⟨by decide, sampleRequest_passes, sampleUpdate_passes, rfl, rfl,
    (storage_errors_fixed_answer sampleRequest sampleUpdate sampleID downStore
      { emptyStore with fault := some "timeout" } id id "connection refused" "timeout"
      (by decide) sampleRequest_passes sampleUpdate_passes).1 rfl rfl⟩

theorem Json.intoPtr_ofPtr (p : Option String) : Json.intoPtr (Json.ofPtr p) = .ok p := by
  cases p <;> rfl

/-- Decoding what `json.Marshal` wrote gives the event back. -/
theorem Event.Unmarshal_Marshal (e : Event) : Event.Unmarshal e.Marshal = .ok e := by
  simp [Event.Unmarshal, Event.Marshal, Event.setMembers, Event.setMember, Json.intoString,
    Json.intoTime, Json.intoPtr_ofPtr, Except.map, Event.zero]

/-- C15: decoding the JSON encoding of an event gives an event with the same id, name,
venue_name, address, date and time and the same optional fields; an optional field that
is unset is written as `null` and one that is set as its string, so that unset and set to
the empty string stay apart. -/
theorem event_json_round_trip (e : Event) :
    (∃ d, Event.Unmarshal e.Marshal = .ok d ∧ d.ID = e.ID ∧ d.Name = e.Name ∧
      d.VenueName = e.VenueName ∧ d.Address = e.Address ∧ d.Date = e.Date ∧
      d.Time = e.Time ∧ d.Description = e.Description ∧
      d.ContactMobile = e.ContactMobile ∧ d.ContactEmail = e.ContactEmail ∧
      d.ContactInstagram = e.ContactInstagram) ∧
    (e.Description = none ↔ e.Marshal.member "description" = some .null) ∧
    (e.ContactMobile = none ↔ e.Marshal.member "contact_mobile" = some .null) ∧
    (e.ContactEmail = none ↔ e.Marshal.member "contact_email" = some .null) ∧
    (e.ContactInstagram = none ↔ e.Marshal.member "contact_instagram" = some .null) ∧
    (∀ s, e.Description = some s ↔ e.Marshal.member "description" = some (.str s)) ∧
    (∀ s, e.ContactMobile = some s ↔ e.Marshal.member "contact_mobile" = some (.str s)) ∧
    (∀ s, e.ContactEmail = some s ↔ e.Marshal.member "contact_email" = some (.str s)) ∧
    (∀ s, e.ContactInstagram = some s ↔
      e.Marshal.member "contact_instagram" = some (.str s)) ∧
    (∃ d0 d1, Event.Unmarshal ({ e with Description := none } : Event).Marshal = .ok d0 ∧
      Event.Unmarshal ({ e with Description := some "" } : Event).Marshal = .ok d1 ∧
      d0.Description = none ∧ d1.Description = some "" ∧ d0 ≠ d1) := by
  refine ⟨⟨e, Event.Unmarshal_Marshal e, rfl, rfl, rfl, rfl, rfl, rfl, rfl, rfl, rfl, rfl⟩,
    ?_, ?_, ?_, ?_, ?_, ?_, ?_, ?_, ?_⟩
  · cases h : e.Description <;> simp [Event.Marshal, Json.member, Json.ofPtr, h]
  · cases h : e.ContactMobile <;> simp [Event.Marshal, Json.member, Json.ofPtr, h]
  · cases h : e.ContactEmail <;> simp [Event.Marshal, Json.member, Json.ofPtr, h]
  · cases h : e.ContactInstagram <;> simp [Event.Marshal, Json.member, Json.ofPtr, h]
  · intro s
    cases h : e.Description <;> simp [Event.Marshal, Json.member, Json.ofPtr, h]
  · intro s
    cases h : e.ContactMobile <;> simp [Event.Marshal, Json.member, Json.ofPtr, h]
  · intro s
    cases h : e.ContactEmail <;> simp [Event.Marshal, Json.member, Json.ofPtr, h]
  · intro s
    cases h : e.ContactInstagram <;> simp [Event.Marshal, Json.member, Json.ofPtr, h]
  · refine ⟨_, _, Event.Unmarshal_Marshal _, Event.Unmarshal_Marshal _, rfl, rfl, ?_⟩
    intro h
    have := congrArg Event.Description h
    simp at this

theorem verdict_bool_eq (req : CreateEventRequest) (ureq : UpdateEventRequest)
    (h : sameValues req ureq) :
    (ureq.Name == "" || ureq.VenueName == "" || ureq.Address == "" || ureq.Date == ""
      || ureq.Time == "") =
    (req.Name == "" || req.VenueName == "" || req.Address == "" || req.Date == ""
      || req.Time == "") ∧
    ureq.Date = req.Date ∧ ureq.Time = req.Time ∧ ureq.ContactEmail = req.ContactEmail := by
  obtain ⟨h1, -, h3, h4, h5, h6, -, h8, -⟩ := h
  rw [h1, h3, h4, h5, h6, h8]
  exact ⟨rfl, rfl, rfl, rfl⟩

/-- C16: on the same values, `CreateEvent` and `UpdateEvent` with a non-empty id reach
the same verdict: both answer 400 with the same message and leave the store alone, or both
pass validation and go on to their first statement. -/
theorem same_validation_verdict (req : CreateEventRequest) (ureq : UpdateEventRequest)
    (id : String) (db1 db2 : Store) (env : Store → Store) (hid : id ≠ "")
    (hsame : sameValues req ureq) :
    (∃ msg, CreateEvent (some req) db1 = (⟨400, .error msg⟩, db1) ∧
      UpdateEvent id (some ureq) db2 env = (⟨400, .error msg⟩, db2)) ∨
    (req.passesValidation ∧ ureq.passesValidation ∧
      CreateEvent (some req) db1 =
        (match db1.queryRowInsert req with
        | (.error _, d) => (⟨500, .error "Failed to create event"⟩, d)
        | (.ok event, d) => (⟨201, .event event⟩, d)) ∧
      UpdateEvent id (some ureq) db2 env =
        (match db2.getIDByID id with
        | (.error _, d) => (⟨404, .error "Event not found"⟩, d)
        | (.ok _, d) =>
          match (env d).queryRowUpdate id ureq with
          | (.error _, d2) => (⟨500, .error "Failed to update event"⟩, d2)
          | (.ok event, d2) => (⟨200, .event event⟩, d2))) := by
  have hidb : (id == "") = false := by simpa using hid
  obtain ⟨hb, hdate, htime, hemail⟩ := verdict_bool_eq req ureq hsame
  by_cases hc : (req.Name == "" || req.VenueName == "" || req.Address == "" || req.Date == ""
      || req.Time == "") = true
  · left
    refine ⟨"Name, venue_name, address, date, and time are required", ?_, ?_⟩
    · simp only [CreateEvent, hc, if_true]
    · simp [UpdateEvent, hidb, hb, hc]
  · have hcu : (ureq.Name == "" || ureq.VenueName == "" || ureq.Address == ""
        || ureq.Date == "" || ureq.Time == "") = false := by
      rw [hb]
      simpa using hc
    by_cases hd : validateDateFormat req.Date = true
    · have hdu : validateDateFormat ureq.Date = true := by rw [hdate]; exact hd
      by_cases ht : validateTimeFormat req.Time = true
      · have htu : validateTimeFormat ureq.Time = true := by rw [htime]; exact ht
        by_cases he : ∀ email, req.ContactEmail = some email → validateEmail email = true
        · right
          have hm : ¬ req.missingRequired := by
            simpa [CreateEventRequest.missingRequired, or_assoc] using hc
          have hm2 : ¬ ureq.missingRequired := by
            have : ¬ (ureq.Name == "" || ureq.VenueName == "" || ureq.Address == ""
                || ureq.Date == "" || ureq.Time == "") = true := by rw [hcu]; simp
            simpa [UpdateEventRequest.missingRequired, or_assoc] using this
          have hp1 : req.passesValidation := ⟨hm, hd, ht, he⟩
          have hp2 : ureq.passesValidation :=
            ⟨hm2, hdu, htu, by rw [hemail]; exact he⟩
          exact ⟨hp1, hp2, CreateEvent_of_passes req hp1 db1,
            UpdateEvent_of_passes id hid ureq hp2 db2 env⟩
        · left
          have hex : ∃ email, req.ContactEmail = some email ∧ validateEmail email = false := by
            by_contra hn
            apply he
            intro email hce
            by_contra hv
            exact hn ⟨email, hce, by simpa using hv⟩
          obtain ⟨email, hce, hv⟩ := hex
          have hceu : ureq.ContactEmail = some email := by rw [hemail]; exact hce
          refine ⟨"Invalid email format", ?_, ?_⟩
          · simp [CreateEvent, hc, hd, ht, hce, hv]
          · simp [UpdateEvent, hidb, hcu, hdu, htu, hceu, hv]
      · left
        have htu : ¬ validateTimeFormat ureq.Time = true := by rw [htime]; exact ht
        refine ⟨"Invalid time format. Use HH:MM:SS format", ?_, ?_⟩
        · simp [CreateEvent, hc, hd, ht]
        · simp [UpdateEvent, hidb, hcu, hdu, htu]
    · left
      have hdu : ¬ validateDateFormat ureq.Date = true := by rw [hdate]; exact hd
      refine ⟨"Invalid date format. Use YYYY-MM-DD format", ?_, ?_⟩
      · simp [CreateEvent, hc, hd]
      · simp [UpdateEvent, hidb, hcu, hdu]

/-- Witness of C16: the requests with missing fields and a malformed e-mail get the same
answer from both handlers. -/
theorem same_validation_verdict_witness :
    sampleID ≠ "" ∧ sameValues missingFieldsRequest missingFieldsUpdate ∧
    ((∃ msg, CreateEvent (some missingFieldsRequest) emptyStore =
        (⟨400, .error msg⟩, emptyStore) ∧
      UpdateEvent sampleID (some missingFieldsUpdate) oneRowStore id =
        (⟨400, .error msg⟩, oneRowStore)) ∨
    (missingFieldsRequest.passesValidation ∧ missingFieldsUpdate.passesValidation ∧
      CreateEvent (some missingFieldsRequest) emptyStore =
        (match emptyStore.queryRowInsert missingFieldsRequest with
        | (.error _, d) => (⟨500, .error "Failed to create event"⟩, d)
        | (.ok event, d) => (⟨201, .event event⟩, d)) ∧
      UpdateEvent sampleID (some missingFieldsUpdate) oneRowStore id =
        (match oneRowStore.getIDByID sampleID with
        | (.error _, d) => (⟨404, .error "Event not found"⟩, d)
        | (.ok _, d) =>
          match (id d).queryRowUpdate sampleID missingFieldsUpdate with
          | (.error _, d2) => (⟨500, .error "Failed to update event"⟩, d2)
          | (.ok event, d2) => (⟨200, .event event⟩, d2)))) :=
  ⟨by decide, ⟨rfl, rfl, rfl, rfl, rfl, rfl, rfl, rfl, rfl⟩,
    same_validation_verdict missingFieldsRequest missingFieldsUpdate sampleID emptyStore
      oneRowStore id (by decide) ⟨rfl, rfl, rfl, rfl, rfl, rfl, rfl, rfl, rfl⟩⟩

end Restapi
